import Mathlib

/-!
Verification of the local entity/relationship extraction and knowledge-graph
assembly engine of the NeuroVault backend.

The definitions below are a shallow embedding of
`backend/utils/relationship_manager.py` (pattern-based entity, relationship
extraction) and `backend/services/knowledge_graph_service.py` (graph assembly,
deduplication, deletion, combined view, local import) of the
`latest-project-neuro-main` backend.

Modelling conventions:
* Python strings are modelled as `String` / `List Char`; the inputs under
  verification are ASCII, so ASCII versions of `str.lower`, `str.strip`,
  `str.split`, `str.isdigit`, `str.title` are used.
* Python floats are decimal literals with at most two fractional digits and
  are only added, subtracted, clamped and compared in the source; they are
  modelled exactly as integers scaled by 100 (e.g. `0.6` becomes `60`).
  Every comparison performed by the source gives the same verdict under this
  scaling as under IEEE doubles, because all values that reach a comparison
  stay within 1e-15 of the decimal value and the compared decimals differ by
  at least 0.05 whenever they differ.
* `re.finditer`, `re.match` with their backtracking semantics (leftmost
  match, left-preferring alternation, greedy bounded repetition,
  non-overlapping scan) are implemented by the small engine below; the
  regular expressions of the source are transliterated into its syntax.
  All entity/relationship patterns are compiled with `re.IGNORECASE`, hence
  character classes and literals are case-insensitive there; the
  `invalid_patterns` check runs `re.match` case-sensitively on an already
  lowercased string.
* File persistence (`_save_generated_data` followed by `_load_generated_data`)
  round-trips the state unchanged and is modelled as the identity; network,
  Neo4j and spaCy are unavailable in the environment modelled here, so
  `enhance_with_nlp` reduces to pattern extraction
  (`extract_entities_and_relationships`), which is the deterministic path the
  specification describes.
-/

set_option maxRecDepth 8192

/-! ## ASCII character and string helpers -/

def isAsciiUpper (c : Char) : Bool := 65 ≤ c.toNat && c.toNat ≤ 90

def isAsciiLower (c : Char) : Bool := 97 ≤ c.toNat && c.toNat ≤ 122

def isAsciiLetter (c : Char) : Bool := isAsciiUpper c || isAsciiLower c

def isAsciiDigit (c : Char) : Bool := 48 ≤ c.toNat && c.toNat ≤ 57

/-- Python `str` whitespace (ASCII part): space, tab, newline, CR, VT, FF. -/
def isPySpace (c : Char) : Bool :=
  c == ' ' || c == '\t' || c == '\n' || c == '\x0d' || c == '\x0b' || c == '\x0c'

/-- Regex word character `\w` (ASCII part): letters, digits, underscore. -/
def isWordChar (c : Char) : Bool := isAsciiLetter c || isAsciiDigit c || c == '_'

def lowerChar (c : Char) : Char :=
  if isAsciiUpper c then Char.ofNat (c.toNat + 32) else c

def upperChar (c : Char) : Char :=
  if isAsciiLower c then Char.ofNat (c.toNat - 32) else c

/-- Python `str.lower()` (ASCII). -/
def lowerStr (l : List Char) : List Char := l.map lowerChar

/-- Python `str.strip()` (ASCII whitespace). -/
def stripChars (l : List Char) : List Char :=
  ((l.dropWhile isPySpace).reverse.dropWhile isPySpace).reverse

/-- Python `str.split()` with no argument: split on runs of whitespace,
dropping empty pieces. -/
def splitWsAux : List Char → List Char → List (List Char)
  | [], acc => if acc.isEmpty then [] else [acc.reverse]
  | c :: rest, acc =>
      if isPySpace c then
        if acc.isEmpty then splitWsAux rest [] else acc.reverse :: splitWsAux rest []
      else splitWsAux rest (c :: acc)

def splitWs (l : List Char) : List (List Char) := splitWsAux l []

/-- Python `str.isdigit()` (ASCII): non-empty and all digits. -/
def isPyDigit (l : List Char) : Bool := !l.isEmpty && l.all isAsciiDigit

/-- Python substring containment `needle in haystack`. -/
def isSubstr (needle haystack : List Char) : Bool :=
  haystack.tails.any (fun t => needle.isPrefixOf t)

/-- Python `str.find`: index of the first occurrence of `needle`
(`none` when absent; the source only uses it under a containment guard). -/
def findSubstrAux (needle : List Char) : List Char → Nat → Option Nat
  | [], i => if needle.isEmpty then some i else none
  | c :: rest, i =>
      if needle.isPrefixOf (c :: rest) then some i else findSubstrAux needle rest (i + 1)

def findSubstr (needle haystack : List Char) : Option Nat := findSubstrAux needle haystack 0

/-- Python `str.title()` (ASCII): uppercase every letter that follows a
non-letter, lowercase the other letters. -/
def pyTitleAux : List Char → Bool → List Char
  | [], _ => []
  | c :: rest, prevAlpha =>
      (if isAsciiLetter c then (if prevAlpha then lowerChar c else upperChar c) else c)
        :: pyTitleAux rest (isAsciiLetter c)

def pyTitle (l : List Char) : List Char := pyTitleAux l false

/-- Python slice `s[i:j]`. -/
def pySlice (s : List Char) (i j : Nat) : List Char := (s.drop i).take (j - i)

/-! ## A regular-expression engine with Python `re` semantics

Alternation prefers the left branch, bounded repetition of a character class
is greedy with backtracking, `\b` is a word boundary, `$`/end anchor is
`eos`.  `reRun` returns the possible (end position, captures) pairs in
backtracking preference order, so the head of the list is exactly the match
Python's engine commits to. -/

inductive RE where
  | eps : RE
  | cls (p : Char → Bool) : RE
  | reps (p : Char → Bool) (lo : Nat) (hi : Option Nat) : RE
  | cat (a b : RE) : RE
  | alt (a b : RE) : RE
  | grp (i : Nat) (r : RE) : RE
  | wordB : RE
  | eos : RE

abbrev Caps := List (Nat × Nat × Nat)

/-- Length of the maximal run of characters satisfying `p`. -/
def runLenAux (p : Char → Bool) : List Char → Nat
  | [] => 0
  | c :: rest => if p c then runLenAux p rest + 1 else 0

def atWordB (s : List Char) (i : Nat) : Bool :=
  let prev := if i = 0 then false else
    (match s.get? (i-1) with | some c => isWordChar c | none => false)
  let next := match s.get? i with | some c => isWordChar c | none => false
  prev != next

def reRun (s : List Char) : RE → Nat → Caps → List (Nat × Caps)
  | .eps, i, cs => [(i, cs)]
  | .cls p, i, cs =>
      match s.get? i with
      | some c => if p c then [(i+1, cs)] else []
      | none => []
  | .reps p lo hi, i, cs =>
      let L := runLenAux p (s.drop i)
      let L := match hi with | some h => min L h | none => L
      if lo ≤ L then (List.range (L + 1 - lo)).map (fun d => (i + (L - d), cs)) else []
  | .cat a b, i, cs => (reRun s a i cs).flatMap (fun x => reRun s b x.1 x.2)
  | .alt a b, i, cs => reRun s a i cs ++ reRun s b i cs
  | .grp k r, i, cs => (reRun s r i cs).map (fun x => (x.1, (k, i, x.1) :: x.2))
  | .wordB, i, cs => if atWordB s i then [(i, cs)] else []
  | .eos, i, cs => if i = s.length then [(i, cs)] else []

structure RMatch where
  mstart : Nat
  mstop : Nat
  caps : Caps
deriving DecidableEq

/-- `re.finditer`: scan left to right, yield the first (preferred) match at
each position, continue after the match (one step forward on an empty
match). -/
def finditerAux (s : List Char) (r : RE) : Nat → Nat → List RMatch
  | 0, _ => []
  | fuel+1, i =>
      if i > s.length then []
      else match (reRun s r i []).head? with
        | some (j, cs) => ⟨i, j, cs⟩ :: finditerAux s r fuel (if i < j then j else i + 1)
        | none => finditerAux s r fuel (i + 1)

def finditer (r : RE) (s : List Char) : List RMatch := finditerAux s r (s.length + 1) 0

/-- `re.match`: does the pattern match at position 0. -/
def reMatch (r : RE) (s : List Char) : Bool := !(reRun s r 0 []).isEmpty

/-- Captured group `k` of a match (`match.group(k)`). -/
def groupStr (s : List Char) (m : RMatch) (k : Nat) : List Char :=
  match m.caps.find? (fun c => c.1 == k) with
  | some (_, a, b) => pySlice s a b
  | none => []

/-! ### Pattern combinators used in the transliteration -/

def reSeq (l : List RE) : RE := l.foldr RE.cat RE.eps

def reAlts (l : List RE) : RE :=
  match l with
  | [] => RE.eps
  | [r] => r
  | r :: rest => RE.alt r (reAlts rest)

/-- Case-insensitive literal character (patterns compiled with IGNORECASE). -/
def chI (c : Char) : RE := RE.cls (fun x => lowerChar x == lowerChar c)

/-- Case-sensitive literal character. -/
def chS (c : Char) : RE := RE.cls (fun x => x == c)

def litI (w : String) : RE := reSeq (w.data.map chI)

def litS (w : String) : RE := reSeq (w.data.map chS)

def reOpt (r : RE) : RE := RE.alt r RE.eps

/-- `[A-Z]` under IGNORECASE: any ASCII letter. -/
def clsUpperI : Char → Bool := isAsciiLetter

/-- `[a-z]` / `[a-zA-Z]` under IGNORECASE: any ASCII letter. -/
def clsLowerI : Char → Bool := isAsciiLetter

/-- `[a-zA-Z\s]` under IGNORECASE. -/
def clsAlphaSpace (c : Char) : Bool := isAsciiLetter c || isPySpace c

/-! ## RelationshipManager (`backend/utils/relationship_manager.py`)

Pattern-based extraction.  Confidences are integers scaled by 100. -/

namespace RelationshipManager

/-- An extracted entity (`extract_entities` output element). -/
structure XEntity where
  id : Nat
  name : String
  type : String
  position : Nat
  confidence : Int
deriving DecidableEq

/-- An extracted relationship (`extract_relationships` output element). -/
structure XRel where
  source : String
  target : String
  type : String
  weight : Int
  position : Nat
  confidence : Int
deriving DecidableEq

/-- `self.entity_patterns`, in dict insertion order, transliterated.
All are matched with `re.IGNORECASE`. -/
def entity_patterns : List (String × List RE) :=
  [("PERSON",
     [ -- \b[A-Z][a-z]{2,15} [A-Z][a-z]{2,15}\b
      reSeq [RE.wordB, RE.cls clsUpperI, RE.reps clsLowerI 2 (some 15), chI ' ',
             RE.cls clsUpperI, RE.reps clsLowerI 2 (some 15), RE.wordB],
      -- \b(?:Mr|Mrs|Ms|Dr|Prof)\.?\s+[A-Z][a-z]{2,15}(?:\s+[A-Z][a-z]{2,15})?\b
      reSeq [RE.wordB, reAlts [litI "Mr", litI "Mrs", litI "Ms", litI "Dr", litI "Prof"],
             reOpt (chI '.'), RE.reps isPySpace 1 none,
             RE.cls clsUpperI, RE.reps clsLowerI 2 (some 15),
             reOpt (reSeq [RE.reps isPySpace 1 none, RE.cls clsUpperI,
                           RE.reps clsLowerI 2 (some 15)]),
             RE.wordB],
      -- \b[A-Z][a-z]{2,15} [A-Z]\. [A-Z][a-z]{2,15}\b
      reSeq [RE.wordB, RE.cls clsUpperI, RE.reps clsLowerI 2 (some 15), chI ' ',
             RE.cls clsUpperI, chI '.', chI ' ',
             RE.cls clsUpperI, RE.reps clsLowerI 2 (some 15), RE.wordB]]),
   ("ORGANIZATION",
     [ -- \b[A-Z][a-zA-Z\s]{2,30}(?:\s+(?:Inc|Corp|LLC|Ltd|Company|Corporation))\b
      reSeq [RE.wordB, RE.cls clsUpperI, RE.reps clsAlphaSpace 2 (some 30),
             RE.reps isPySpace 1 none,
             reAlts [litI "Inc", litI "Corp", litI "LLC", litI "Ltd",
                     litI "Company", litI "Corporation"],
             RE.wordB],
      -- \b(?:Apple Inc|Google|Microsoft|Amazon|Facebook|Meta|Tesla|SpaceX|OpenAI)\b
      reSeq [RE.wordB,
             reAlts [litI "Apple Inc", litI "Google", litI "Microsoft", litI "Amazon",
                     litI "Facebook", litI "Meta", litI "Tesla", litI "SpaceX",
                     litI "OpenAI"],
             RE.wordB],
      -- \b[A-Z][a-zA-Z\s]{2,20}\s+(?:Technologies|Systems|Solutions|Services)\b
      reSeq [RE.wordB, RE.cls clsUpperI, RE.reps clsAlphaSpace 2 (some 20),
             RE.reps isPySpace 1 none,
             reAlts [litI "Technologies", litI "Systems", litI "Solutions",
                     litI "Services"],
             RE.wordB]]),
   ("LOCATION",
     [ -- \b[A-Z][a-z]{2,20},\s+[A-Z][a-z]{2,20}\b
      reSeq [RE.wordB, RE.cls clsUpperI, RE.reps clsLowerI 2 (some 20), chI ',',
             RE.reps isPySpace 1 none,
             RE.cls clsUpperI, RE.reps clsLowerI 2 (some 20), RE.wordB],
      -- \b(?:California|New York|Texas|Florida|Washington|Cupertino|Seattle|Austin)\b
      reSeq [RE.wordB,
             reAlts [litI "California", litI "New York", litI "Texas", litI "Florida",
                     litI "Washington", litI "Cupertino", litI "Seattle", litI "Austin"],
             RE.wordB],
      -- \b[A-Z][a-z]{2,20}\s+(?:City|County|State|Province)\b
      reSeq [RE.wordB, RE.cls clsUpperI, RE.reps clsLowerI 2 (some 20),
             RE.reps isPySpace 1 none,
             reAlts [litI "City", litI "County", litI "State", litI "Province"],
             RE.wordB]]),
   ("TECHNOLOGY",
     [ -- \b(?:Artificial Intelligence|Machine Learning|Deep Learning|Neural Networks?|API|Database)\b
      reSeq [RE.wordB,
             reAlts [litI "Artificial Intelligence", litI "Machine Learning",
                     litI "Deep Learning",
                     reSeq [litI "Neural Network", reOpt (chI 's')],
                     litI "API", litI "Database"],
             RE.wordB],
      -- \b(?:Python|JavaScript|React|FastAPI|Docker|Kubernetes|iOS|Android|Windows|macOS)\b
      reSeq [RE.wordB,
             reAlts [litI "Python", litI "JavaScript", litI "React", litI "FastAPI",
                     litI "Docker", litI "Kubernetes", litI "iOS", litI "Android",
                     litI "Windows", litI "macOS"],
             RE.wordB],
      -- \b[A-Z][a-zA-Z]{2,15}(?:\s+[A-Z][a-zA-Z]{2,15})?\s+(?:Platform|Framework|Library|SDK)\b
      reSeq [RE.wordB, RE.cls clsUpperI, RE.reps clsLowerI 2 (some 15),
             reOpt (reSeq [RE.reps isPySpace 1 none, RE.cls clsUpperI,
                           RE.reps clsLowerI 2 (some 15)]),
             RE.reps isPySpace 1 none,
             reAlts [litI "Platform", litI "Framework", litI "Library", litI "SDK"],
             RE.wordB]])]

/-- Shape `[A-Z][a-z]+ [A-Z][a-z]+` (capture content of the person group). -/
def rxPerson : RE :=
  reSeq [RE.cls clsUpperI, RE.reps clsLowerI 1 none, chI ' ',
         RE.cls clsUpperI, RE.reps clsLowerI 1 none]

/-- Shape `[A-Z][a-zA-Z\s]+`. -/
def rxOrg : RE := reSeq [RE.cls clsUpperI, RE.reps clsAlphaSpace 1 none]

/-- Shape `[A-Z][a-z]+`. -/
def rxWord : RE := reSeq [RE.cls clsUpperI, RE.reps clsLowerI 1 none]

/-- `self.relationship_patterns`, transliterated; all matched with
`re.IGNORECASE`; capture group 1 is the source, group 2 the target. -/
def relationship_patterns : List (RE × String) :=
  [(reSeq [RE.grp 1 rxPerson, litI " is ", reOpt (litI "the "), litI "CEO of ",
           RE.grp 2 rxOrg], "CEO_OF"),
   (reSeq [RE.grp 1 rxPerson, litI " works at ", RE.grp 2 rxOrg], "WORKS_AT"),
   (reSeq [RE.grp 1 rxOrg, litI " is headquartered in ", RE.grp 2 rxWord],
    "HEADQUARTERED_IN"),
   (reSeq [RE.grp 1 rxOrg, litI " develops ", RE.grp 2 rxOrg], "DEVELOPS"),
   (reSeq [RE.grp 1 rxPerson, litI " founded ", RE.grp 2 rxOrg], "FOUNDED"),
   (reSeq [RE.grp 1 rxPerson, litI " leads ", RE.grp 2 rxOrg], "LEADS"),
   (reSeq [RE.grp 1 rxPerson, litI " created ", RE.grp 2 rxOrg], "CREATED"),
   (reSeq [RE.grp 1 rxOrg, litI " owns ", RE.grp 2 rxOrg], "OWNS"),
   (reSeq [RE.grp 1 rxOrg, litI " uses ", RE.grp 2 rxOrg], "USES"),
   (reSeq [RE.grp 1 rxOrg, litI " is a product of ", RE.grp 2 rxOrg], "PRODUCT_OF")]

/-- The `stop_words` set of `extract_entities` (source order; the Python set
literal contains a few repeated elements, harmless for membership). -/
def stop_words : List String :=
  ["the", "a", "an", "and", "or", "but", "in", "on", "at", "to", "for", "of", "with", "by",
   "from", "up", "about", "into", "through", "during", "before", "after", "above", "below",
   "between", "among", "this", "that", "these", "those", "i", "me", "my", "myself", "we",
   "our", "ours", "ourselves", "you", "your", "yours", "yourself", "yourselves", "he", "him",
   "his", "himself", "she", "her", "hers", "herself", "it", "its", "itself", "they", "them",
   "their", "theirs", "themselves", "what", "which", "who", "whom", "whose",
   "am", "is", "are", "was", "were", "be", "been", "being", "have", "has",
   "had", "having", "do", "does", "did", "doing", "will", "would", "could", "should", "may",
   "might", "must", "can", "shall", "stale", "smell", "old", "beer", "heat", "bring", "out",
   "cold", "takes", "lingers", "odor", "taste", "tastes", "favorite", "pickle", "salt",
   "the stale", "the ceo", "founded spacex", "and tesla", "leads meta", "created amazon",
   "microsoft develops", "windows and", "apple inc"]

/-- The `invalid_patterns` of `extract_entities`; matched case-sensitively
with `re.match` against the lowercased candidate. -/
def invalid_patterns : List RE :=
  [ -- ^the\s+\w+$
   reSeq [litS "the", RE.reps isPySpace 1 none, RE.reps isWordChar 1 none, RE.eos],
   -- ^\w+\s+and$
   reSeq [RE.reps isWordChar 1 none, RE.reps isPySpace 1 none, litS "and", RE.eos],
   -- ^\w+\s+(develops|founded|created|leads)$
   reSeq [RE.reps isWordChar 1 none, RE.reps isPySpace 1 none,
          RE.grp 1 (reAlts [litS "develops", litS "founded", litS "created", litS "leads"]),
          RE.eos],
   -- ^(ceo|cto|cfo)\s+of$
   reSeq [RE.grp 1 (reAlts [litS "ceo", litS "cto", litS "cfo"]),
          RE.reps isPySpace 1 none, litS "of", RE.eos]]

/-- `^[^a-zA-Z]*$` — the candidate filter rejects texts matching this
("contains letters" check). -/
def rxNoLetters : RE :=
  reSeq [RE.reps (fun c => !isAsciiLetter c) 0 none, RE.eos]

/-- `_is_meaningful_entity`. -/
def is_meaningful_entity (text : List Char) (entity_type : String) : Bool :=
  if entity_type = "PERSON" then
    text.any isAsciiUpper && decide ((splitWs text).length ≤ 3)
  else if entity_type = "ORGANIZATION" then
    text.any isAsciiUpper &&
      (decide ((splitWs text).length ≤ 3) ||
       (["inc", "corp", "ltd", "llc", "company"].any
         (fun w => isSubstr w.data (lowerStr text))))
  else if entity_type = "LOCATION" then
    text.any isAsciiUpper
  else if entity_type = "TECHNOLOGY" then
    decide (3 ≤ text.length) &&
      !(["the", "and", "or", "but"].any (fun w => w.data == lowerStr text))
  else
    true

/-- `_calculate_confidence` (scaled by 100, clamped to `[10, 100]`). -/
def calculate_confidence (text : List Char) (entity_type : String) : Int :=
  let c0 : Int := 50
  let c1 := if text.any isAsciiUpper then c0 + 20 else c0
  let c2 :=
    if entity_type = "PERSON" ∧ (splitWs text).length = 2 then c1 + 20
    else if entity_type = "ORGANIZATION" ∧
              (["inc", "corp", "ltd", "company"].any
                (fun w => isSubstr w.data (lowerStr text))) then c1 + 30
    else if entity_type = "TECHNOLOGY" ∧ 4 ≤ text.length then c1 + 10
    else c1
  let c3 := if text.length < 3 then c2 - 20
            else if 30 < text.length then c2 - 10 else c2
  min 100 (max 10 c3)

/-- The per-candidate filter and construction of `extract_entities`
(the body of the innermost loop); the id is assigned afterwards. -/
def mk_candidate (t : List Char) (entity_type : String) (m : RMatch) : Option XEntity :=
  let entity_text := stripChars (pySlice t m.mstart m.mstop)
  let entity_lower := lowerStr entity_text
  if decide (2 < entity_text.length) &&
     !(stop_words.any (fun w => w.data == entity_lower)) &&
     !(isPyDigit entity_text) &&
     decide ((splitWs entity_text).length ≤ 4) &&
     !(reMatch rxNoLetters entity_text) &&
     !("http".data.isPrefixOf entity_text || "www".data.isPrefixOf entity_text ||
       "ftp".data.isPrefixOf entity_text) &&
     !(invalid_patterns.any (fun p => reMatch p entity_lower)) &&
     is_meaningful_entity entity_text entity_type then
    some ⟨0, String.mk entity_text, entity_type, m.mstart,
          calculate_confidence entity_text entity_type⟩
  else
    none

/-- The final pass of `extract_entities`: drop duplicates (case-insensitive
on name, first occurrence kept) and candidates with confidence below 0.6. -/
def dedup_pass (seen : List (List Char)) : List XEntity → List XEntity
  | [] => []
  | e :: rest =>
      if !(seen.contains (lowerStr e.name.data)) && decide (60 ≤ e.confidence) then
        e :: dedup_pass (lowerStr e.name.data :: seen) rest
      else
        dedup_pass seen rest

/-- `extract_entities`. -/
def extract_entities (text : String) : List XEntity :=
  let t := text.data
  let raw := entity_patterns.flatMap (fun fam =>
    fam.2.flatMap (fun p => (finditer p t).filterMap (fun m => mk_candidate t fam.1 m)))
  let entities := raw.enum.map (fun ie => { ie.2 with id := ie.1 })
  dedup_pass [] entities

/-- `extract_relationships`.  Every pattern has exactly two capture groups,
so the source's `len(groups) >= 2` guard always holds. -/
def extract_relationships (text : String) : List XRel :=
  let t := text.data
  relationship_patterns.flatMap (fun pr =>
    (finditer pr.1 t).map (fun m =>
      ⟨String.mk (stripChars (groupStr t m 1)), String.mk (stripChars (groupStr t m 2)),
       pr.2, 100, m.mstart, 70⟩))

end RelationshipManager

/-! ## KnowledgeGraphService (`backend/services/knowledge_graph_service.py`) -/

namespace KnowledgeGraphService

/-- A property value (the node/edge `properties` dicts hold strings,
numbers and booleans). -/
inductive PVal where
  | s : String → PVal
  | i : Int → PVal
  | n : Nat → PVal
  | b : Bool → PVal
deriving DecidableEq

/-- A graph node dict. -/
structure GNode where
  id : String
  label : String
  type : String
  properties : List (String × PVal)
deriving DecidableEq

/-- A graph edge dict. -/
structure GEdge where
  id : String
  source : String
  target : String
  type : String
  weight : Int
  properties : List (String × PVal)
deriving DecidableEq

/-- The service state: `self.generated_nodes`, `self.generated_edges`,
`self.deleted_sample_nodes` (a set, modelled as a duplicate-free list). -/
structure KGState where
  generated_nodes : List GNode
  generated_edges : List GEdge
  deleted_sample_nodes : List String
deriving DecidableEq

/-- The state at first construction with no persisted snapshot
(`_load_generated_data` with no file). -/
def initState : KGState := ⟨[], [], []⟩

/-- `_deduplicate_list_by_id` / the node and edge halves of
`_deduplicate_generated_data`: drop items whose id was already seen. -/
def dedup_by_id_aux (key : α → String) (seen : List String) : List α → List α
  | [] => []
  | x :: xs =>
      if seen.contains (key x) then dedup_by_id_aux key seen xs
      else x :: dedup_by_id_aux key (key x :: seen) xs

def dedup_nodes_by_id (l : List GNode) : List GNode := dedup_by_id_aux (fun n => n.id) [] l

def dedup_edges_by_id (l : List GEdge) : List GEdge := dedup_by_id_aux (fun e => e.id) [] l

/-- `_get_sample_graph_data`: the fixed sample graph (13 nodes, 9 edges). -/
def sample_graph_nodes : List GNode :=
  [⟨"tim_cook", "Tim Cook", "PERSON", [("role", .s "CEO")]⟩,
   ⟨"apple", "Apple Inc", "ORGANIZATION", [("industry", .s "Technology")]⟩,
   ⟨"cupertino", "Cupertino", "LOCATION", [("state", .s "California")]⟩,
   ⟨"elon_musk", "Elon Musk", "PERSON", [("role", .s "CEO")]⟩,
   ⟨"spacex", "SpaceX", "ORGANIZATION", [("industry", .s "Aerospace")]⟩,
   ⟨"tesla", "Tesla", "ORGANIZATION", [("industry", .s "Automotive")]⟩,
   ⟨"mark_zuckerberg", "Mark Zuckerberg", "PERSON", [("role", .s "CEO")]⟩,
   ⟨"meta", "Meta", "ORGANIZATION", [("industry", .s "Social Media")]⟩,
   ⟨"facebook", "Facebook", "TECHNOLOGY", [("type", .s "Platform")]⟩,
   ⟨"instagram", "Instagram", "TECHNOLOGY", [("type", .s "Platform")]⟩,
   ⟨"harvard_generated", "Harvard University", "ORGANIZATION",
     [("source", .s "harvard.wav"), ("generated", .b true)]⟩,
   ⟨"research_generated", "Academic Research", "CONCEPT",
     [("source", .s "harvard.wav"), ("generated", .b true)]⟩,
   ⟨"education_generated", "Higher Education", "CONCEPT",
     [("source", .s "harvard.wav"), ("generated", .b true)]⟩]

def sample_graph_edges : List GEdge :=
  [⟨"e1", "tim_cook", "apple", "CEO_OF", 100, []⟩,
   ⟨"e2", "apple", "cupertino", "HEADQUARTERED_IN", 100, []⟩,
   ⟨"e3", "elon_musk", "spacex", "FOUNDED", 100, [("year", .s "2002")]⟩,
   ⟨"e4", "elon_musk", "tesla", "CEO_OF", 100, []⟩,
   ⟨"e5", "mark_zuckerberg", "meta", "CEO_OF", 100, []⟩,
   ⟨"e6", "meta", "facebook", "OWNS", 100, []⟩,
   ⟨"e7", "meta", "instagram", "OWNS", 100, []⟩,
   ⟨"e_harvard_1", "harvard_generated", "research_generated", "CONDUCTS", 100,
     [("source", .s "harvard.wav"), ("generated", .b true)]⟩,
   ⟨"e_harvard_2", "harvard_generated", "education_generated", "PROVIDES", 100,
     [("source", .s "harvard.wav"), ("generated", .b true)]⟩]

/-! ### Service-level extraction post-processing -/

/-- An entity after `_post_process_entities`. -/
structure PEntity where
  name : String
  type : String
  confidence : Int
  position : Nat
deriving DecidableEq

/-- A relationship after `_post_process_relationships`. -/
structure PRel where
  source : String
  target : String
  type : String
  weight : Int
  confidence : Int
deriving DecidableEq

/-- The classification fixes of `_post_process_entities`. -/
def fix_entity_type (name_lower : List Char) (ty : String) : String :=
  if ["tacos al pastor", "tacos", "beer", "ham", "pickle", "salt pickle"].any
       (fun w => w.data == name_lower) then "FOOD"
  else if ["health", "zest", "odor", "smell"].any (fun w => w.data == name_lower) then
    "CONCEPT"
  else if ["heat", "cold", "dip"].any (fun w => w.data == name_lower) then "CONDITION"
  else ty

/-- `_post_process_entities`. -/
def post_process_entities (entities : List RelationshipManager.XEntity) (text : String) :
    List PEntity :=
  let tl := lowerStr text.data
  let base := entities.filterMap (fun e =>
    if decide (e.name.data.length < 2) ||
       (["the", "a", "an", "this", "that"].any (fun w => w.data == lowerStr e.name.data)) then
      none
    else
      some ⟨e.name, fix_entity_type (lowerStr e.name.data) e.type, e.confidence, e.position⟩)
  let withHarvard :=
    if isSubstr "harvard".data tl then
      base ++ [⟨"Harvard University", "ORGANIZATION", 90, (findSubstr "harvard".data tl).getD 0⟩]
    else base
  ["beer", "ham", "tacos", "pickle"].foldl (fun acc term =>
    if isSubstr term.data tl && !(acc.any (fun e => lowerStr e.name.data == term.data)) then
      acc ++ [⟨String.mk (pyTitle term.data), "FOOD", 85, (findSubstr term.data tl).getD 0⟩]
    else acc) withHarvard

/-- `_post_process_relationships`. -/
def post_process_relationships (rels : List RelationshipManager.XRel) (text : String) :
    List PRel :=
  let tl := lowerStr text.data
  rels.filterMap (fun r =>
    if decide (r.source.data.length < 2) || decide (r.target.data.length < 2) then none
    else
      let ty :=
        if isSubstr "restore".data tl && isSubstr "health".data (lowerStr r.target.data) then
          "RESTORES"
        else if isSubstr "taste".data tl &&
                (["pickle", "ham", "tacos"].any
                  (fun f => isSubstr f.data (lowerStr r.source.data))) then
          "TASTES_WITH"
        else r.type
      some ⟨r.source, r.target, ty, r.weight, r.confidence⟩)

/-- `extract_entities_and_relationships` of the service: pattern extraction
(spaCy being unavailable, `enhance_with_nlp` falls through to
`RelationshipManager.extract_entities_and_relationships`) followed by the
post-processing passes.  The `facts` component is not consumed by any of the
graph operations and is omitted. -/
def extract_entities_and_relationships (text : String) : List PEntity × List PRel :=
  (post_process_entities (RelationshipManager.extract_entities text) text,
   post_process_relationships (RelationshipManager.extract_relationships text) text)

/-! ### generate_graph_from_text -/

/-- Node id `f"extracted_{transcript_id}_{i}" if transcript_id else
f"extracted_{i}"` (Python truthiness: `None` and `0` both take the second
branch). -/
def mk_node_id (tid : Option Nat) (i : Nat) : String :=
  match tid with
  | some t => if t = 0 then "extracted_" ++ toString i
              else "extracted_" ++ toString t ++ "_" ++ toString i
  | none => "extracted_" ++ toString i

/-- Edge id `f"rel_{transcript_id}_{i}" if transcript_id else f"rel_{i}"`. -/
def mk_edge_id (tid : Option Nat) (i : Nat) : String :=
  match tid with
  | some t => if t = 0 then "rel_" ++ toString i
              else "rel_" ++ toString t ++ "_" ++ toString i
  | none => "rel_" ++ toString i

/-- `f"transcript_{transcript_id}" if transcript_id else "text_import"`. -/
def source_tag (tid : Option Nat) : String :=
  match tid with
  | some t => if t = 0 then "text_import" else "transcript_" ++ toString t
  | none => "text_import"

/-- `user_id or 'local-user-1'` (empty string is falsy). -/
def effective_user (uid : Option String) : String :=
  match uid with
  | some u => if u = "" then "local-user-1" else u
  | none => "local-user-1"

/-- The `new_nodes` loop of `generate_graph_from_text`: one node per
extracted entity, skipping empty/whitespace-only names; the enumeration
index is used in the id even for skipped entries. -/
def build_new_nodes (ents : List PEntity) (tid : Option Nat) (uid : Option String) :
    List GNode :=
  ents.enum.filterMap (fun ie =>
    let e := ie.2
    if e.name.data.isEmpty || (stripChars e.name.data).isEmpty then none
    else
      some ⟨mk_node_id tid ie.1, String.mk (stripChars e.name.data), e.type,
            [("confidence", .i e.confidence), ("source", .s (source_tag tid)),
             ("user_id", .s (effective_user uid)), ("position", .n e.position)]⟩)

/-- Assignment `d[k] = v` on a Python dict in insertion order (overwrite
keeps the original position). -/
def dict_set (d : List (String × String)) (k v : String) : List (String × String) :=
  if d.any (fun p => p.1 == k) then d.map (fun p => if p.1 == k then (k, v) else p)
  else d ++ [(k, v)]

/-- `if k not in d: d[k] = v`. -/
def dict_set_if_absent (d : List (String × String)) (k v : String) :
    List (String × String) :=
  if d.any (fun p => p.1 == k) then d else d ++ [(k, v)]

/-- Register a single word alias (`if len(word) > 2 and word not in d`). -/
def add_word_alias (node_id : String) (d : List (String × String)) (w : List Char) :
    List (String × String) :=
  if 2 < w.length then dict_set_if_absent d (String.mk w) node_id else d

/-- The per-node body of the `entity_name_to_id` loop: full lowercase label
(overwriting), then each word longer than 2 characters (only if absent). -/
def add_node_aliases (d : List (String × String)) (node : GNode) :
    List (String × String) :=
  let entity_name := lowerStr node.label.data
  let d := dict_set d (String.mk entity_name) node.id
  (splitWs entity_name).foldl (add_word_alias node.id) d

def entity_name_to_id (nodes : List GNode) : List (String × String) :=
  nodes.foldl add_node_aliases []

/-- Best-overlap endpoint resolution of the relationship loop.  The source
scores an exact alias match as `len(entity_name)` and a one-way containment
as `len(entity_name) / 2`; both scores are doubled here to stay in `ℤ`,
which preserves every comparison. -/
def best_match_step (txt : String) (acc : Option String × Int) (kv : String × String) :
    Option String × Int :=
  if isSubstr kv.1.data txt.data || isSubstr txt.data kv.1.data then
    let score : Int := if kv.1 == txt then 2 * (kv.1.data.length : Int)
                       else (kv.1.data.length : Int)
    if acc.2 < score then (some kv.2, score) else acc
  else acc

def best_match (d : List (String × String)) (txt : String) : Option String :=
  (d.foldl (best_match_step txt) (none, 0)).1

/-- The `new_edges` loop of `generate_graph_from_text`: resolve both
endpoints through the alias mapping, drop the relationship when either side
fails to resolve. -/
def build_new_edges (rels : List PRel) (tid : Option Nat) (uid : Option String)
    (mapping : List (String × String)) : List GEdge :=
  rels.enum.filterMap (fun ir =>
    let r := ir.2
    let source_text := String.mk (lowerStr r.source.data)
    let target_text := String.mk (lowerStr r.target.data)
    match best_match mapping source_text, best_match mapping target_text with
    | some sid, some tgt =>
        some ⟨mk_edge_id tid ir.1, sid, tgt, r.type, r.weight,
              [("confidence", .i r.confidence), ("source", .s (source_tag tid)),
               ("user_id", .s (effective_user uid))]⟩
    | _, _ => none)

/-- The response dict of `generate_graph_from_text` (fields actually
produced; `transcript_id` is echoed unchanged and omitted here). -/
structure GenResponse where
  nodes : List GNode
  edges : List GEdge
  entities_created : Nat
  relationships_created : Nat
deriving DecidableEq

/-- `generate_graph_from_text`: extract, build nodes/edges, insert only ids
not already present, run the defensive dedup pass, persist (identity), and
assemble the response from the unfiltered sample data plus the generated
data. -/
def generate_graph_from_text (st : KGState) (text : String) (tid : Option Nat)
    (uid : Option String) : KGState × GenResponse :=
  let extracted := extract_entities_and_relationships text
  let new_nodes := build_new_nodes extracted.1 tid uid
  let new_edges := build_new_edges extracted.2 tid uid (entity_name_to_id new_nodes)
  let existing_node_ids := st.generated_nodes.map (fun n => n.id)
  let existing_edge_ids := st.generated_edges.map (fun e => e.id)
  let new_unique_nodes := new_nodes.filter (fun n => !(existing_node_ids.contains n.id))
  let new_unique_edges := new_edges.filter (fun e => !(existing_edge_ids.contains e.id))
  let gnodes := dedup_nodes_by_id (st.generated_nodes ++ new_unique_nodes)
  let gedges := dedup_edges_by_id (st.generated_edges ++ new_unique_edges)
  let all_nodes := dedup_nodes_by_id (sample_graph_nodes ++ gnodes)
  let all_edges := dedup_edges_by_id (sample_graph_edges ++ gedges)
  (⟨gnodes, gedges, st.deleted_sample_nodes⟩,
   ⟨all_nodes, all_edges, extracted.1.length, extracted.2.length⟩)

/-! ### delete_node, clear_all_graph_data, get_combined_graph_data -/

structure DelResult where
  nodes_removed : Nat
  edges_removed : Nat
deriving DecidableEq

/-- `delete_node`: hard-delete from the generated lists (cascading incident
generated edges); a sample node id is tombstoned instead, counting its
sample edges as removed for reporting. -/
def delete_node (st : KGState) (node_id : String) : KGState × DelResult :=
  let kept_nodes := st.generated_nodes.filter (fun n => !(n.id == node_id))
  let kept_edges := st.generated_edges.filter
    (fun e => !(e.source == node_id) && !(e.target == node_id))
  let nodes_removed := st.generated_nodes.length - kept_nodes.length
  let edges_removed := st.generated_edges.length - kept_edges.length
  let is_sample := (sample_graph_nodes.map (fun n => n.id)).contains node_id
  let deleted' :=
    if is_sample then
      (if st.deleted_sample_nodes.contains node_id then st.deleted_sample_nodes
       else st.deleted_sample_nodes ++ [node_id])
    else st.deleted_sample_nodes
  let nodes_removed := nodes_removed + (if is_sample then 1 else 0)
  let edges_removed := edges_removed +
    (if is_sample then
      (sample_graph_edges.filter
        (fun e => e.source == node_id || e.target == node_id)).length
     else 0)
  (⟨kept_nodes, kept_edges, deleted'⟩, ⟨nodes_removed, edges_removed⟩)

structure ClearResult where
  nodes_removed : Nat
  edges_removed : Nat
  generated_nodes_removed : Nat
  generated_edges_removed : Nat
  sample_nodes_removed : Nat
  sample_edges_removed : Nat
deriving DecidableEq

/-- `clear_all_graph_data`: empty the generated lists and tombstone every
sample node id. -/
def clear_all_graph_data (st : KGState) : KGState × ClearResult :=
  let gn := st.generated_nodes.length
  let ge := st.generated_edges.length
  let sn := sample_graph_nodes.length
  let se := sample_graph_edges.length
  let deleted' := sample_graph_nodes.foldl
    (fun d n => if d.contains n.id then d else d ++ [n.id]) st.deleted_sample_nodes
  (⟨[], [], deleted'⟩, ⟨gn + sn, ge + se, gn, ge, sn, se⟩)

structure GraphData where
  nodes : List GNode
  edges : List GEdge
deriving DecidableEq

/-- `get_combined_graph_data`: sample data with tombstoned nodes (and edges
touching them) filtered out, followed by the generated data; no
deduplication pass is applied here. -/
def get_combined_graph_data (st : KGState) : GraphData :=
  let filtered_sample_nodes := sample_graph_nodes.filter
    (fun n => !(st.deleted_sample_nodes.contains n.id))
  let filtered_sample_edges := sample_graph_edges.filter
    (fun e => !(st.deleted_sample_nodes.contains e.source) &&
              !(st.deleted_sample_nodes.contains e.target))
  ⟨filtered_sample_nodes ++ st.generated_nodes,
   filtered_sample_edges ++ st.generated_edges⟩

/-! ### import_text / _create_entities_locally -/

/-- One row of the hard-coded entity table of `_create_entities_locally`. -/
structure LocalEnt where
  id : String
  label : String
  type : String
  category : String

/-- One row of the hard-coded relationship table. -/
structure LocalRel where
  source : String
  target : String
  type : String
  weight : Int

/-- The 17 hard-coded entities of `_create_entities_locally`. -/
def local_entities : List LocalEnt :=
  [⟨"google", "Google", "ORGANIZATION", "tech"⟩,
   ⟨"amazon", "Amazon", "ORGANIZATION", "tech"⟩,
   ⟨"microsoft", "Microsoft", "ORGANIZATION", "tech"⟩,
   ⟨"new_york", "New York", "LOCATION", "city"⟩,
   ⟨"silicon_valley", "Silicon Valley", "LOCATION", "region"⟩,
   ⟨"california", "California", "LOCATION", "state"⟩,
   ⟨"mba_program", "MBA Program", "CONCEPT", "education"⟩,
   ⟨"gmat_score", "GMAT Score", "CONCEPT", "education"⟩,
   ⟨"business_school", "Business School", "CONCEPT", "education"⟩,
   ⟨"online_education", "Online Education", "CONCEPT", "education"⟩,
   ⟨"career_development", "Career Development", "CONCEPT", "career"⟩,
   ⟨"professional_growth", "Professional Growth", "CONCEPT", "career"⟩,
   ⟨"leadership", "Leadership", "CONCEPT", "career"⟩,
   ⟨"management", "Management", "CONCEPT", "career"⟩,
   ⟨"tech_industry", "Tech Industry", "CONCEPT", "industry"⟩,
   ⟨"ecommerce", "E-commerce", "CONCEPT", "industry"⟩,
   ⟨"cloud_computing", "Cloud Computing", "CONCEPT", "industry"⟩]

/-- The 25 hard-coded relationships of `_create_entities_locally`. -/
def local_relationships : List LocalRel :=
  [⟨"google", "tech_industry", "BELONGS_TO", 100⟩,
   ⟨"amazon", "tech_industry", "BELONGS_TO", 100⟩,
   ⟨"microsoft", "tech_industry", "BELONGS_TO", 100⟩,
   ⟨"amazon", "ecommerce", "DOMINATES", 100⟩,
   ⟨"google", "cloud_computing", "PROVIDES", 100⟩,
   ⟨"microsoft", "cloud_computing", "PROVIDES", 100⟩,
   ⟨"google", "california", "HEADQUARTERED_IN", 100⟩,
   ⟨"amazon", "california", "HEADQUARTERED_IN", 100⟩,
   ⟨"microsoft", "california", "HEADQUARTERED_IN", 100⟩,
   ⟨"silicon_valley", "california", "LOCATED_IN", 100⟩,
   ⟨"tech_industry", "silicon_valley", "CENTERS_IN", 100⟩,
   ⟨"mba_program", "business_school", "PART_OF", 100⟩,
   ⟨"gmat_score", "mba_program", "REQUIRED_FOR", 100⟩,
   ⟨"business_school", "education", "CATEGORY", 100⟩,
   ⟨"online_education", "mba_program", "DELIVERS", 100⟩,
   ⟨"mba_program", "career_development", "HELPS_WITH", 100⟩,
   ⟨"career_development", "professional_growth", "LEADS_TO", 100⟩,
   ⟨"career_development", "leadership", "DEVELOPS", 100⟩,
   ⟨"leadership", "management", "INVOLVES", 100⟩,
   ⟨"tech_industry", "career_development", "OFFERS", 100⟩,
   ⟨"ecommerce", "career_development", "OFFERS", 100⟩,
   ⟨"cloud_computing", "career_development", "OFFERS", 100⟩,
   ⟨"google", "career_development", "PROVIDES", 100⟩,
   ⟨"amazon", "career_development", "PROVIDES", 100⟩,
   ⟨"microsoft", "career_development", "PROVIDES", 100⟩]

/-- `_create_entities_locally`: discard the generated lists and install the
hard-coded graph (the text argument is never consulted); returns the new
state and `len(nodes)`. -/
def create_entities_locally (st : KGState) (text : String) (source_name : String) :
    KGState × Nat :=
  let _ := text
  let nodes := local_entities.map (fun ent =>
    GNode.mk ent.id ent.label ent.type
      [("source", .s source_name), ("category", .s ent.category)])
  let edges := local_relationships.enum.map (fun ir =>
    GEdge.mk ("edge_" ++ toString ir.1) ir.2.source ir.2.target ir.2.type ir.2.weight
      [("source", .s source_name)])
  (⟨nodes, edges, st.deleted_sample_nodes⟩, nodes.length)

structure ImportResult where
  content_length : Nat
  entities_created : Nat
deriving DecidableEq

/-- `import_text` (`title or "Direct Text Import"`: `None` and the empty
string are both falsy). -/
def import_text (st : KGState) (text : String) (title : Option String) :
    KGState × ImportResult :=
  let source_name := match title with
    | some t => if t = "" then "Direct Text Import" else t
    | none => "Direct Text Import"
  let r := create_entities_locally st text source_name
  (r.1, ⟨text.data.length, r.2⟩)

end KnowledgeGraphService

/-! ## Helper lemmas about the deduplication pass -/

namespace KnowledgeGraphService

theorem dedup_aux_cons_mem {α : Type} {key : α → String} {seen : List String}
    {y : α} {ys : List α} (h : key y ∈ seen) :
    dedup_by_id_aux key seen (y :: ys) = dedup_by_id_aux key seen ys := by
  rw [dedup_by_id_aux, if_pos (by simpa using h)]

theorem dedup_aux_cons_not_mem {α : Type} {key : α → String} {seen : List String}
    {y : α} {ys : List α} (h : key y ∉ seen) :
    dedup_by_id_aux key seen (y :: ys) = y :: dedup_by_id_aux key (key y :: seen) ys := by
  rw [dedup_by_id_aux, if_neg (by simpa using h)]

theorem mem_of_mem_dedup_aux {α : Type} {key : α → String} {seen : List String}
    {l : List α} {x : α} (h : x ∈ dedup_by_id_aux key seen l) : x ∈ l := by
  induction l generalizing seen with
  | nil => simp [dedup_by_id_aux] at h
  | cons y ys ih =>
      by_cases hcy : key y ∈ seen
      · rw [dedup_aux_cons_mem hcy] at h
        exact List.mem_cons_of_mem _ (ih h)
      · rw [dedup_aux_cons_not_mem hcy] at h
        rcases List.mem_cons.mp h with heq | h
        · exact heq ▸ List.mem_cons_self _ _
        · exact List.mem_cons_of_mem _ (ih h)

theorem exists_key_mem_dedup_aux {α : Type} {key : α → String} {seen : List String}
    {l : List α} {k : String} (hk : k ∈ l.map key) (hs : k ∉ seen) :
    ∃ x, x ∈ dedup_by_id_aux key seen l ∧ key x = k := by
  induction l generalizing seen with
  | nil => simp at hk
  | cons y ys ih =>
      by_cases hcy : key y ∈ seen
      · have hk' : k ∈ ys.map key := by
          rcases (by simpa using hk : k = key y ∨ k ∈ ys.map key) with h | h
          · exact absurd (h ▸ hcy) hs
          · exact h
        rcases ih hk' hs with ⟨x, hx, hkey⟩
        exact ⟨x, by rw [dedup_aux_cons_mem hcy]; exact hx, hkey⟩
      · by_cases hky : k = key y
        · exact ⟨y, by rw [dedup_aux_cons_not_mem hcy]; exact List.mem_cons_self _ _,
                 hky.symm⟩
        · have hk' : k ∈ ys.map key := by
            rcases (by simpa using hk : k = key y ∨ k ∈ ys.map key) with h | h
            · exact absurd h hky
            · exact h
          have hs' : k ∉ key y :: seen := by
            intro hmem
            rcases List.mem_cons.mp hmem with heq | hmem
            · exact hky heq
            · exact hs hmem
          rcases ih hk' hs' with ⟨x, hx, hkey⟩
          exact ⟨x, by rw [dedup_aux_cons_not_mem hcy];
                       exact List.mem_cons_of_mem _ hx, hkey⟩

theorem dedup_aux_nodup_keys {α : Type} (key : α → String) (seen : List String)
    (l : List α) :
    ((dedup_by_id_aux key seen l).map key).Nodup ∧
    ∀ x ∈ dedup_by_id_aux key seen l, key x ∉ seen := by
  induction l generalizing seen with
  | nil => simp [dedup_by_id_aux]
  | cons y ys ih =>
      by_cases hcy : key y ∈ seen
      · rw [dedup_aux_cons_mem hcy]
        exact ih seen
      · have ih' := ih (key y :: seen)
        rw [dedup_aux_cons_not_mem hcy]
        constructor
        · rw [List.map_cons, List.nodup_cons]
          refine ⟨?_, ih'.1⟩
          intro hmem
          rcases List.mem_map.mp hmem with ⟨x, hx, hkey⟩
          exact (ih'.2 x hx) (by rw [hkey]; exact List.mem_cons_self _ _)
        · intro x hx
          rcases List.mem_cons.mp hx with heq | hx
          · exact heq ▸ hcy
          · intro hmem
            exact (ih'.2 x hx) (List.mem_cons_of_mem _ hmem)

theorem dedup_aux_eq_self {α : Type} {key : α → String} {seen : List String}
    {l : List α} (h1 : (l.map key).Nodup) (h2 : ∀ x ∈ l, key x ∉ seen) :
    dedup_by_id_aux key seen l = l := by
  induction l generalizing seen with
  | nil => rfl
  | cons y ys ih =>
      rw [List.map_cons, List.nodup_cons] at h1
      rw [dedup_aux_cons_not_mem (h2 y (List.mem_cons_self _ _))]
      congr 1
      apply ih h1.2
      intro x hx hmem
      rcases List.mem_cons.mp hmem with heq | hmem
      · exact h1.1 (heq ▸ List.mem_map.mpr ⟨x, hx, rfl⟩)
      · exact h2 x (List.mem_cons_of_mem _ hx) hmem

theorem dedup_aux_agree {α : Type} {key : α → String} {l : List α}
    {s₁ s₂ : List String} (h : ∀ x ∈ l, (key x ∈ s₁ ↔ key x ∈ s₂)) :
    dedup_by_id_aux key s₁ l = dedup_by_id_aux key s₂ l := by
  induction l generalizing s₁ s₂ with
  | nil => rfl
  | cons y ys ih =>
      have hy := h y (List.mem_cons_self _ _)
      by_cases hcy : key y ∈ s₁
      · rw [dedup_aux_cons_mem hcy, dedup_aux_cons_mem (hy.mp hcy)]
        exact ih (fun x hx => h x (List.mem_cons_of_mem _ hx))
      · rw [dedup_aux_cons_not_mem hcy,
            dedup_aux_cons_not_mem (fun hc => hcy (hy.mpr hc))]
        congr 1
        refine ih (fun x hx => ?_)
        constructor
        · intro hmem
          rcases List.mem_cons.mp hmem with heq | hmem
          · exact heq ▸ List.mem_cons_self _ _
          · exact List.mem_cons_of_mem _ ((h x (List.mem_cons_of_mem _ hx)).mp hmem)
        · intro hmem
          rcases List.mem_cons.mp hmem with heq | hmem
          · exact heq ▸ List.mem_cons_self _ _
          · exact List.mem_cons_of_mem _ ((h x (List.mem_cons_of_mem _ hx)).mpr hmem)

theorem dedup_aux_append {α : Type} {key : α → String} {l₁ l₂ : List α}
    {seen : List String}
    (h0 : ∀ x ∈ l₁, key x ∉ seen)
    (h1 : (l₁.map key).Nodup)
    (h2 : ∀ x ∈ l₂, key x ∉ l₁.map key ∧ key x ∉ seen) :
    dedup_by_id_aux key seen (l₁ ++ l₂) = l₁ ++ dedup_by_id_aux key seen l₂ := by
  induction l₁ generalizing seen with
  | nil => simp
  | cons y ys ih =>
      rw [List.map_cons, List.nodup_cons] at h1
      rw [List.cons_append,
          dedup_aux_cons_not_mem (h0 y (List.mem_cons_self _ _))]
      have step : dedup_by_id_aux key (key y :: seen) (ys ++ l₂) =
          ys ++ dedup_by_id_aux key (key y :: seen) l₂ := by
        apply ih
        · intro x hx hmem
          rcases List.mem_cons.mp hmem with heq | hmem
          · exact h1.1 (heq ▸ List.mem_map.mpr ⟨x, hx, rfl⟩)
          · exact h0 x (List.mem_cons_of_mem _ hx) hmem
        · exact h1.2
        · intro x hx
          have hx2 := h2 x hx
          refine ⟨fun hmem => hx2.1 (by rw [List.map_cons]; exact List.mem_cons_of_mem _ hmem), ?_⟩
          intro hmem
          rcases List.mem_cons.mp hmem with heq | hmem
          · exact hx2.1 (by rw [List.map_cons, heq]; exact List.mem_cons_self _ _)
          · exact hx2.2 hmem
      rw [step]
      have fix : dedup_by_id_aux key (key y :: seen) l₂ = dedup_by_id_aux key seen l₂ := by
        apply dedup_aux_agree
        intro x hx
        have hx2 := h2 x hx
        constructor
        · intro hmem
          rcases List.mem_cons.mp hmem with heq | hmem
          · exact absurd (by rw [List.map_cons, heq]; exact List.mem_cons_self _ _) hx2.1
          · exact hmem
        · exact fun hmem => List.mem_cons_of_mem _ hmem
      rw [fix, List.cons_append]

theorem mem_keys_dedup {α : Type} {key : α → String} {l : List α} {k : String} :
    k ∈ (dedup_by_id_aux key [] l).map key ↔ k ∈ l.map key := by
  constructor
  · intro h
    rcases List.mem_map.mp h with ⟨x, hx, hkey⟩
    exact List.mem_map.mpr ⟨x, mem_of_mem_dedup_aux hx, hkey⟩
  · intro h
    rcases exists_key_mem_dedup_aux h (List.not_mem_nil k) with ⟨x, hx, hkey⟩
    exact List.mem_map.mpr ⟨x, hx, hkey⟩

theorem dedup_idem {α : Type} (key : α → String) (l : List α) :
    dedup_by_id_aux key [] (dedup_by_id_aux key [] l) = dedup_by_id_aux key [] l :=
  dedup_aux_eq_self (dedup_aux_nodup_keys key [] l).1 (fun x _ => List.not_mem_nil (key x))

end KnowledgeGraphService

/-! ## State invariants and reachability -/

namespace KnowledgeGraphService

def node_ids (l : List GNode) : List String := l.map (fun n => n.id)

def edge_ids (l : List GEdge) : List String := l.map (fun e => e.id)

/-- States reachable from the freshly constructed service by any sequence of
`generate_graph_from_text`, `delete_node`, `clear_all_graph_data` calls. -/
inductive Reachable : KGState → Prop where
  | init : Reachable initState
  | gen (st : KGState) (text : String) (tid : Option Nat) (uid : Option String) :
      Reachable st → Reachable (generate_graph_from_text st text tid uid).1
  | del (st : KGState) (node_id : String) :
      Reachable st → Reachable (delete_node st node_id).1
  | clear (st : KGState) : Reachable st → Reachable (clear_all_graph_data st).1

/-- The structural invariant maintained by all three mutating operations:
generated edges only reference generated node ids, generated ids are
duplicate-free, and generated ids never collide with the sample ids. -/
def GoodState (st : KGState) : Prop :=
  (∀ e ∈ st.generated_edges,
     e.source ∈ node_ids st.generated_nodes ∧ e.target ∈ node_ids st.generated_nodes) ∧
  (node_ids st.generated_nodes).Nodup ∧
  (edge_ids st.generated_edges).Nodup ∧
  (∀ i ∈ node_ids st.generated_nodes, i ∉ node_ids sample_graph_nodes) ∧
  (∀ i ∈ edge_ids st.generated_edges, i ∉ edge_ids sample_graph_edges)

theorem mk_node_id_second_char (tid : Option Nat) (i : Nat) :
    (mk_node_id tid i).data.get? 1 = some 'x' := by
  have hx : "extracted_".data = ['e','x','t','r','a','c','t','e','d','_'] := rfl
  cases tid with
  | none =>
      show ("extracted_" ++ toString i).data.get? 1 = some 'x'
      rw [String.data_append, hx]
      rfl
  | some t =>
      by_cases ht : t = 0
      · show (if t = 0 then "extracted_" ++ toString i
              else "extracted_" ++ toString t ++ "_" ++ toString i).data.get? 1 = some 'x'
        rw [if_pos ht, String.data_append, hx]
        rfl
      · show (if t = 0 then "extracted_" ++ toString i
              else "extracted_" ++ toString t ++ "_" ++ toString i).data.get? 1 = some 'x'
        rw [if_neg ht, String.data_append, String.data_append, String.data_append, hx]
        rfl

theorem mk_edge_id_second_char (tid : Option Nat) (i : Nat) :
    (mk_edge_id tid i).data.get? 1 = some 'e' := by
  have hx : "rel_".data = ['r','e','l','_'] := rfl
  cases tid with
  | none =>
      show ("rel_" ++ toString i).data.get? 1 = some 'e'
      rw [String.data_append, hx]
      rfl
  | some t =>
      by_cases ht : t = 0
      · show (if t = 0 then "rel_" ++ toString i
              else "rel_" ++ toString t ++ "_" ++ toString i).data.get? 1 = some 'e'
        rw [if_pos ht, String.data_append, hx]
        rfl
      · show (if t = 0 then "rel_" ++ toString i
              else "rel_" ++ toString t ++ "_" ++ toString i).data.get? 1 = some 'e'
        rw [if_neg ht, String.data_append, String.data_append, String.data_append, hx]
        rfl

theorem mk_node_id_not_sample (tid : Option Nat) (i : Nat) :
    mk_node_id tid i ∉ node_ids sample_graph_nodes := by
  intro h
  have h1 := mk_node_id_second_char tid i
  have h2 : ∀ s ∈ node_ids sample_graph_nodes, ¬(s.data.get? 1 = some 'x') := by decide
  exact h2 _ h h1

theorem mk_edge_id_not_sample (tid : Option Nat) (i : Nat) :
    mk_edge_id tid i ∉ edge_ids sample_graph_edges := by
  intro h
  have h1 := mk_edge_id_second_char tid i
  have h2 : ∀ s ∈ edge_ids sample_graph_edges, ¬(s.data.get? 1 = some 'e') := by decide
  exact h2 _ h h1

/-- Every node produced by `build_new_nodes` has an id of the `extracted_*`
shape. -/
theorem build_new_nodes_id {ents : List PEntity} {tid : Option Nat}
    {uid : Option String} {n : GNode} (h : n ∈ build_new_nodes ents tid uid) :
    ∃ j, n.id = mk_node_id tid j := by
  rcases List.mem_filterMap.mp h with ⟨ie, _, hsome⟩
  cases hc : (ie.2.name.data.isEmpty || (stripChars ie.2.name.data).isEmpty) with
  | true => simp [hc] at hsome
  | false =>
      simp [hc] at hsome
      first
      | exact ⟨ie.1, by rw [← hsome]⟩
      | exact ⟨ie.1, by rw [hsome]⟩

/-- Every edge produced by `build_new_edges` has an id of the `rel_*`
shape. -/
theorem build_new_edges_id {rels : List PRel} {tid : Option Nat}
    {uid : Option String} {mapping : List (String × String)} {e : GEdge}
    (h : e ∈ build_new_edges rels tid uid mapping) :
    ∃ j, e.id = mk_edge_id tid j := by
  rcases List.mem_filterMap.mp h with ⟨ir, _, hsome⟩
  rcases hs : best_match mapping (String.mk (lowerStr ir.2.source.data)) with _ | sid
  all_goals rcases ht : best_match mapping (String.mk (lowerStr ir.2.target.data)) with _ | tgt
  all_goals simp [hs, ht] at hsome
  first
  | exact ⟨ir.1, by rw [← hsome]⟩
  | exact ⟨ir.1, by rw [hsome]⟩

end KnowledgeGraphService

namespace KnowledgeGraphService

theorem dict_set_values {d : List (String × String)} {k v : String}
    {S : List String} (hd : ∀ kv ∈ d, kv.2 ∈ S) (hv : v ∈ S) :
    ∀ kv ∈ dict_set d k v, kv.2 ∈ S := by
  intro kv hkv
  unfold dict_set at hkv
  by_cases hc : d.any (fun p => p.1 == k)
  · rw [if_pos hc] at hkv
    rcases List.mem_map.mp hkv with ⟨p, hp, hpe⟩
    by_cases hpk : p.1 == k
    · rw [if_pos hpk] at hpe
      rw [← hpe]
      exact hv
    · rw [if_neg hpk] at hpe
      rw [← hpe]
      exact hd p hp
  · rw [if_neg hc] at hkv
    rcases List.mem_append.mp hkv with h | h
    · exact hd kv h
    · rcases List.mem_singleton.mp h with rfl
      exact hv

theorem dict_set_if_absent_values {d : List (String × String)} {k v : String}
    {S : List String} (hd : ∀ kv ∈ d, kv.2 ∈ S) (hv : v ∈ S) :
    ∀ kv ∈ dict_set_if_absent d k v, kv.2 ∈ S := by
  intro kv hkv
  unfold dict_set_if_absent at hkv
  by_cases hc : d.any (fun p => p.1 == k)
  · rw [if_pos hc] at hkv
    exact hd kv hkv
  · rw [if_neg hc] at hkv
    rcases List.mem_append.mp hkv with h | h
    · exact hd kv h
    · rcases List.mem_singleton.mp h with rfl
      exact hv

theorem add_word_alias_values {node_id : String} {S : List String}
    (hv : node_id ∈ S) :
    ∀ (ws : List (List Char)) (d : List (String × String)),
      (∀ kv ∈ d, kv.2 ∈ S) →
      ∀ kv ∈ ws.foldl (add_word_alias node_id) d, kv.2 ∈ S := by
  intro ws
  induction ws with
  | nil => intro d hd kv hkv; exact hd kv hkv
  | cons w rest ih =>
      intro d hd kv hkv
      refine ih _ ?_ kv hkv
      intro kv' hkv'
      unfold add_word_alias at hkv'
      by_cases hw : 2 < w.length
      · rw [if_pos hw] at hkv'
        exact dict_set_if_absent_values hd hv kv' hkv'
      · rw [if_neg hw] at hkv'
        exact hd kv' hkv'

theorem entity_name_to_id_values_aux {S : List String} :
    ∀ (l : List GNode) (d : List (String × String)),
      (∀ kv ∈ d, kv.2 ∈ S) → (∀ n ∈ l, n.id ∈ S) →
      ∀ kv ∈ l.foldl add_node_aliases d, kv.2 ∈ S := by
  intro l
  induction l with
  | nil => intro d hd _ kv hkv; exact hd kv hkv
  | cons node rest ih =>
      intro d hd hl kv hkv
      refine ih _ ?_ (fun n hn => hl n (List.mem_cons_of_mem _ hn)) kv hkv
      intro kv' hkv'
      unfold add_node_aliases at hkv'
      refine add_word_alias_values (hl node (List.mem_cons_self _ _)) _ _ ?_ kv' hkv'
      exact dict_set_values hd (hl node (List.mem_cons_self _ _))

/-- Every value registered in the alias index is the id of one of the
nodes. -/
theorem entity_name_to_id_values {nodes : List GNode} :
    ∀ kv ∈ entity_name_to_id nodes, kv.2 ∈ node_ids nodes := by
  unfold entity_name_to_id
  refine entity_name_to_id_values_aux nodes [] (by simp) (fun n hn => ?_)
  exact List.mem_map.mpr ⟨n, hn, rfl⟩

theorem best_match_step_cases (txt : String) (acc : Option String × Int)
    (kv : String × String) :
    (best_match_step txt acc kv).1 = acc.1 ∨
    (best_match_step txt acc kv).1 = some kv.2 := by
  unfold best_match_step
  by_cases h1 : isSubstr kv.1.data txt.data || isSubstr txt.data kv.1.data
  · rw [if_pos h1]
    by_cases h2 : acc.2 < (if kv.1 == txt then 2 * (kv.1.data.length : Int)
                           else (kv.1.data.length : Int))
    · rw [if_pos h2]
      exact Or.inr rfl
    · rw [if_neg h2]
      exact Or.inl rfl
  · rw [if_neg h1]
    exact Or.inl rfl

theorem best_match_foldl_aux (txt : String) :
    ∀ (l : List (String × String)) (acc : Option String × Int) (w : String),
      (l.foldl (best_match_step txt) acc).1 = some w →
      acc.1 = some w ∨ ∃ kv ∈ l, kv.2 = w := by
  intro l
  induction l with
  | nil => intro acc w h; exact Or.inl h
  | cons kv rest ih =>
      intro acc w h
      rcases ih (best_match_step txt acc kv) w h with h1 | h1
      · rcases best_match_step_cases txt acc kv with h2 | h2
        · exact Or.inl (h2 ▸ h1)
        · rw [h2] at h1
          exact Or.inr ⟨kv, List.mem_cons_self _ _, (Option.some.injEq _ _).mp h1⟩
      · rcases h1 with ⟨kv', hkv', he⟩
        exact Or.inr ⟨kv', List.mem_cons_of_mem _ hkv', he⟩

/-- A resolved endpoint is always one of the alias index's values. -/
theorem best_match_mem {d : List (String × String)} {txt : String} {v : String}
    (h : best_match d txt = some v) : ∃ kv ∈ d, kv.2 = v := by
  rcases best_match_foldl_aux txt d (none, 0) v h with h1 | h1
  · exact absurd h1 (by simp)
  · exact h1

/-- Every edge produced by `build_new_edges` references ids of the supplied
node list on both sides (when the alias index is built from that list). -/
theorem build_new_edges_endpoints {rels : List PRel} {tid : Option Nat}
    {uid : Option String} {nodes : List GNode} {e : GEdge}
    (h : e ∈ build_new_edges rels tid uid (entity_name_to_id nodes)) :
    e.source ∈ node_ids nodes ∧ e.target ∈ node_ids nodes := by
  rcases List.mem_filterMap.mp h with ⟨ir, _, hsome⟩
  rcases hs : (best_match (entity_name_to_id nodes) (String.mk (lowerStr ir.2.source.data))) with _ | sid
  all_goals rcases ht : (best_match (entity_name_to_id nodes) (String.mk (lowerStr ir.2.target.data))) with _ | tgt
  all_goals simp [hs, ht] at hsome
  rcases best_match_mem hs with ⟨kvs, hkvs, hes⟩
  rcases best_match_mem ht with ⟨kvt, hkvt, het⟩
  have hsrc := entity_name_to_id_values kvs hkvs
  have htgt := entity_name_to_id_values kvt hkvt
  rw [hes] at hsrc
  rw [het] at htgt
  constructor
  · first
    | (rw [← hsome]; exact hsrc)
    | (rw [hsome]; exact hsrc)
  · first
    | (rw [← hsome]; exact htgt)
    | (rw [hsome]; exact htgt)

end KnowledgeGraphService

namespace KnowledgeGraphService

theorem goodstate_init : GoodState initState := by
  refine ⟨?_, ?_, ?_, ?_, ?_⟩ <;> simp [initState, node_ids, edge_ids]

theorem goodstate_generate {st : KGState} (text : String) (tid : Option Nat)
    (uid : Option String) (h : GoodState st) :
    GoodState (generate_graph_from_text st text tid uid).1 := by
  obtain ⟨hend, hnn, hne, hds, hde⟩ := h
  unfold generate_graph_from_text
  set ents := (extract_entities_and_relationships text).1 with hents
  set rels := (extract_entities_and_relationships text).2 with hrels
  set new_nodes := build_new_nodes ents tid uid with hnew
  set new_edges := build_new_edges rels tid uid (entity_name_to_id new_nodes) with hnewe
  set U := new_nodes.filter
    (fun n => !((st.generated_nodes.map (fun n => n.id)).contains n.id)) with hU
  set V := new_edges.filter
    (fun e => !((st.generated_edges.map (fun e => e.id)).contains e.id)) with hV
  have hUn : ∀ n ∈ U, n ∈ new_nodes := fun n hn => (List.mem_filter.mp hn).1
  have hVn : ∀ e ∈ V, e ∈ new_edges := fun e he => (List.mem_filter.mp he).1
  -- membership of every new node id in the keys of the merged list
  have hnewin : ∀ n ∈ new_nodes,
      n.id ∈ node_ids (dedup_nodes_by_id (st.generated_nodes ++ U)) := by
    intro n hn
    have : n.id ∈ node_ids (st.generated_nodes ++ U) := by
      by_cases hc : n.id ∈ node_ids st.generated_nodes
      · exact List.mem_map.mpr (by
          rcases List.mem_map.mp hc with ⟨n', hn', he⟩
          exact ⟨n', List.mem_append_left _ hn', he⟩)
      · have hnU : n ∈ U := by
          rw [hU]
          refine List.mem_filter.mpr ⟨hn, ?_⟩
          simp only [Bool.not_eq_true']
          simpa [node_ids] using hc
        exact List.mem_map.mpr ⟨n, List.mem_append_right _ hnU, rfl⟩
    exact (@mem_keys_dedup GNode (fun n => n.id) _ _).mpr this
  refine ⟨?_, ?_, ?_, ?_, ?_⟩
  · -- endpoints
    intro e he
    have he' : e ∈ st.generated_edges ++ V :=
      mem_of_mem_dedup_aux he
    rcases List.mem_append.mp he' with h1 | h1
    · obtain ⟨hsrc, htgt⟩ := hend e h1
      constructor
      · exact (@mem_keys_dedup GNode (fun n => n.id) _ _).mpr
          (by rcases List.mem_map.mp hsrc with ⟨n', hn', heq⟩
              exact List.mem_map.mpr ⟨n', List.mem_append_left _ hn', heq⟩)
      · exact (@mem_keys_dedup GNode (fun n => n.id) _ _).mpr
          (by rcases List.mem_map.mp htgt with ⟨n', hn', heq⟩
              exact List.mem_map.mpr ⟨n', List.mem_append_left _ hn', heq⟩)
    · obtain ⟨hsrc, htgt⟩ := build_new_edges_endpoints (hVn e h1)
      constructor
      · rcases List.mem_map.mp hsrc with ⟨n', hn', heq⟩
        exact heq ▸ hnewin n' hn'
      · rcases List.mem_map.mp htgt with ⟨n', hn', heq⟩
        exact heq ▸ hnewin n' hn'
  · exact (dedup_aux_nodup_keys _ [] _).1
  · exact (dedup_aux_nodup_keys _ [] _).1
  · intro i hi
    have hi' : i ∈ node_ids (st.generated_nodes ++ U) :=
      (@mem_keys_dedup GNode (fun n => n.id) _ _).mp hi
    rw [node_ids, List.map_append] at hi'
    rcases List.mem_append.mp hi' with h1 | h1
    · exact hds i h1
    · rcases List.mem_map.mp h1 with ⟨n', hn', heq⟩
      rcases build_new_nodes_id (hUn n' hn') with ⟨j, hj⟩
      rw [← heq, hj]
      exact mk_node_id_not_sample tid j
  · intro i hi
    have hi' : i ∈ edge_ids (st.generated_edges ++ V) :=
      (@mem_keys_dedup GEdge (fun e => e.id) _ _).mp hi
    rw [edge_ids, List.map_append] at hi'
    rcases List.mem_append.mp hi' with h1 | h1
    · exact hde i h1
    · rcases List.mem_map.mp h1 with ⟨e', he', heq⟩
      rcases build_new_edges_id (hVn e' he') with ⟨j, hj⟩
      rw [← heq, hj]
      exact mk_edge_id_not_sample tid j

theorem goodstate_delete {st : KGState} (node_id : String) (h : GoodState st) :
    GoodState (delete_node st node_id).1 := by
  obtain ⟨hend, hnn, hne, hds, hde⟩ := h
  unfold delete_node
  refine ⟨?_, ?_, ?_, ?_, ?_⟩
  · intro e he
    obtain ⟨hein, hcond⟩ := List.mem_filter.mp he
    obtain ⟨hsrc, htgt⟩ := hend e hein
    have hs : ¬(e.source == node_id) := by
      intro hc
      simp [hc] at hcond
    have ht : ¬(e.target == node_id) := by
      intro hc
      simp [hc] at hcond
    constructor
    · rcases List.mem_map.mp hsrc with ⟨n', hn', heq⟩
      refine List.mem_map.mpr ⟨n', List.mem_filter.mpr ⟨hn', ?_⟩, heq⟩
      simp only [Bool.not_eq_true']
      rw [← heq] at hs
      simpa using fun hc => hs (by simp [hc])
    · rcases List.mem_map.mp htgt with ⟨n', hn', heq⟩
      refine List.mem_map.mpr ⟨n', List.mem_filter.mpr ⟨hn', ?_⟩, heq⟩
      simp only [Bool.not_eq_true']
      rw [← heq] at ht
      simpa using fun hc => ht (by simp [hc])
  · exact List.Nodup.sublist (List.Sublist.map _ (List.filter_sublist _)) hnn
  · exact List.Nodup.sublist (List.Sublist.map _ (List.filter_sublist _)) hne
  · intro i hi
    rcases List.mem_map.mp hi with ⟨n', hn', heq⟩
    exact heq ▸ hds n'.id (List.mem_map.mpr ⟨n', (List.mem_filter.mp hn').1, rfl⟩)
  · intro i hi
    rcases List.mem_map.mp hi with ⟨e', he', heq⟩
    exact heq ▸ hde e'.id (List.mem_map.mpr ⟨e', (List.mem_filter.mp he').1, rfl⟩)

theorem goodstate_clear {st : KGState} (h : GoodState st) :
    GoodState (clear_all_graph_data st).1 := by
  refine ⟨?_, ?_, ?_, ?_, ?_⟩ <;> simp [clear_all_graph_data, node_ids, edge_ids]

theorem reachable_good {st : KGState} (h : Reachable st) : GoodState st := by
  induction h with
  | init => exact goodstate_init
  | gen st text tid uid _ ih => exact goodstate_generate text tid uid ih
  | del st node_id _ ih => exact goodstate_delete node_id ih
  | clear st _ ih => exact goodstate_clear ih

end KnowledgeGraphService

namespace KnowledgeGraphService

/-- Concrete fact: every sample edge's endpoints are sample node ids. -/
theorem sample_edges_endpoints :
    ∀ e ∈ sample_graph_edges,
      (∃ n ∈ sample_graph_nodes, n.id = e.source) ∧
      (∃ n ∈ sample_graph_nodes, n.id = e.target) := by decide

theorem combined_no_dangling {st : KGState} (h : GoodState st) :
    ∀ e ∈ (get_combined_graph_data st).edges,
      (∃ n ∈ (get_combined_graph_data st).nodes, n.id = e.source) ∧
      (∃ n ∈ (get_combined_graph_data st).nodes, n.id = e.target) := by
  intro e he
  unfold get_combined_graph_data at he ⊢
  dsimp only at he ⊢
  rcases List.mem_append.mp he with h1 | h1
  · obtain ⟨hein, hcond⟩ := List.mem_filter.mp h1
    have hsrc : e.source ∉ st.deleted_sample_nodes := by
      intro hc
      simp [hc] at hcond
    have htgt : e.target ∉ st.deleted_sample_nodes := by
      intro hc
      simp [hc] at hcond
    obtain ⟨⟨ns, hns, hnse⟩, ⟨nt, hnt, hnte⟩⟩ := sample_edges_endpoints e hein
    constructor
    · refine ⟨ns, List.mem_append_left _ (List.mem_filter.mpr ⟨hns, ?_⟩), hnse⟩
      simp [hnse, hsrc]
    · refine ⟨nt, List.mem_append_left _ (List.mem_filter.mpr ⟨hnt, ?_⟩), hnte⟩
      simp [hnte, htgt]
  · obtain ⟨hsrc, htgt⟩ := h.1 e h1
    constructor
    · rcases List.mem_map.mp hsrc with ⟨n', hn', heq⟩
      exact ⟨n', List.mem_append_right _ hn', heq⟩
    · rcases List.mem_map.mp htgt with ⟨n', hn', heq⟩
      exact ⟨n', List.mem_append_right _ hn', heq⟩

end KnowledgeGraphService

/-- C2: for every graph state reachable from the initial empty generated
state by any sequence of `generate_graph_from_text`, `delete_node` and
`clear_all_graph_data` calls, every edge in the result of
`get_combined_graph_data` has a source id and a target id each equal to the
id of some node in that same result (no dangling edges in the combined
view). -/
theorem C2_no_dangling_edges {st : KnowledgeGraphService.KGState}
    (h : KnowledgeGraphService.Reachable st) :
    ∀ e ∈ (KnowledgeGraphService.get_combined_graph_data st).edges,
      (∃ n ∈ (KnowledgeGraphService.get_combined_graph_data st).nodes, n.id = e.source) ∧
      (∃ n ∈ (KnowledgeGraphService.get_combined_graph_data st).nodes, n.id = e.target) :=
  KnowledgeGraphService.combined_no_dangling (KnowledgeGraphService.reachable_good h)

/-- Witness for C2: at the reachable state obtained by deleting the sample
node `"apple"` from the initial state, the surviving seed edge `e3`
(elon_musk --FOUNDED--> spacex) has both endpoints present in the combined
view. -/
theorem C2_no_dangling_edges_witness :
    (∃ n ∈ (KnowledgeGraphService.get_combined_graph_data
        (KnowledgeGraphService.delete_node KnowledgeGraphService.initState "apple").1).nodes,
      n.id = "elon_musk") ∧
    (∃ n ∈ (KnowledgeGraphService.get_combined_graph_data
        (KnowledgeGraphService.delete_node KnowledgeGraphService.initState "apple").1).nodes,
      n.id = "spacex") :=
  C2_no_dangling_edges
    (KnowledgeGraphService.Reachable.del KnowledgeGraphService.initState "apple"
      KnowledgeGraphService.Reachable.init)
    ⟨"e3", "elon_musk", "spacex", "FOUNDED", 100,
      [("year", KnowledgeGraphService.PVal.s "2002")]⟩ (by decide)

namespace KnowledgeGraphService

/-- The generated node list after `generate_graph_from_text`, unfolded. -/
theorem generate_state_nodes (st : KGState) (text : String) (tid : Option Nat)
    (uid : Option String) :
    (generate_graph_from_text st text tid uid).1.generated_nodes =
      dedup_nodes_by_id (st.generated_nodes ++
        (build_new_nodes (extract_entities_and_relationships text).1 tid uid).filter
          (fun n => !((st.generated_nodes.map (fun n => n.id)).contains n.id))) := rfl

/-- The generated edge list after `generate_graph_from_text`, unfolded. -/
theorem generate_state_edges (st : KGState) (text : String) (tid : Option Nat)
    (uid : Option String) :
    (generate_graph_from_text st text tid uid).1.generated_edges =
      dedup_edges_by_id (st.generated_edges ++
        (build_new_edges (extract_entities_and_relationships text).2 tid uid
            (entity_name_to_id
              (build_new_nodes (extract_entities_and_relationships text).1 tid uid))).filter
          (fun e => !((st.generated_edges.map (fun e => e.id)).contains e.id))) := rfl

theorem generate_state_deleted (st : KGState) (text : String) (tid : Option Nat)
    (uid : Option String) :
    (generate_graph_from_text st text tid uid).1.deleted_sample_nodes =
      st.deleted_sample_nodes := rfl

theorem mem_node_ids_dedup {l : List GNode} {i : String} :
    i ∈ node_ids (dedup_nodes_by_id l) ↔ i ∈ node_ids l := mem_keys_dedup

theorem mem_edge_ids_dedup {l : List GEdge} {i : String} :
    i ∈ edge_ids (dedup_edges_by_id l) ↔ i ∈ edge_ids l := mem_keys_dedup

theorem dedup_nodes_idem (l : List GNode) :
    dedup_nodes_by_id (dedup_nodes_by_id l) = dedup_nodes_by_id l := dedup_idem _ l

theorem dedup_edges_idem (l : List GEdge) :
    dedup_edges_by_id (dedup_edges_by_id l) = dedup_edges_by_id l := dedup_idem _ l

/-- After a `generate_graph_from_text` call, every node id the call
constructed is present among the generated node ids. -/
theorem generate_node_ids_superset (st : KGState) (text : String) (tid : Option Nat)
    (uid : Option String) :
    ∀ n ∈ build_new_nodes (extract_entities_and_relationships text).1 tid uid,
      n.id ∈ node_ids (generate_graph_from_text st text tid uid).1.generated_nodes := by
  intro n hn
  rw [generate_state_nodes]
  apply mem_node_ids_dedup.mpr
  rw [node_ids, List.map_append]
  by_cases hc : n.id ∈ node_ids st.generated_nodes
  · exact List.mem_append_left _ hc
  · refine List.mem_append_right _ (List.mem_map.mpr ⟨n, List.mem_filter.mpr ⟨hn, ?_⟩, rfl⟩)
    simp only [Bool.not_eq_true']
    simpa [node_ids] using hc

/-- After a `generate_graph_from_text` call, every edge id the call
constructed is present among the generated edge ids. -/
theorem generate_edge_ids_superset (st : KGState) (text : String) (tid : Option Nat)
    (uid : Option String) :
    ∀ e ∈ build_new_edges (extract_entities_and_relationships text).2 tid uid
        (entity_name_to_id
          (build_new_nodes (extract_entities_and_relationships text).1 tid uid)),
      e.id ∈ edge_ids (generate_graph_from_text st text tid uid).1.generated_edges := by
  intro e he
  rw [generate_state_edges]
  apply mem_edge_ids_dedup.mpr
  rw [edge_ids, List.map_append]
  by_cases hc : e.id ∈ edge_ids st.generated_edges
  · exact List.mem_append_left _ hc
  · refine List.mem_append_right _ (List.mem_map.mpr ⟨e, List.mem_filter.mpr ⟨he, ?_⟩, rfl⟩)
    simp only [Bool.not_eq_true']
    simpa [edge_ids] using hc

/-- Re-running the same import leaves the generated lists unchanged. -/
theorem generate_twice (st : KGState) (text : String) (tid : Option Nat)
    (uid : Option String) :
    (generate_graph_from_text (generate_graph_from_text st text tid uid).1
        text tid uid).1.generated_nodes =
      (generate_graph_from_text st text tid uid).1.generated_nodes ∧
    (generate_graph_from_text (generate_graph_from_text st text tid uid).1
        text tid uid).1.generated_edges =
      (generate_graph_from_text st text tid uid).1.generated_edges := by
  constructor
  · rw [generate_state_nodes ((generate_graph_from_text st text tid uid).1)]
    have hfil : (build_new_nodes (extract_entities_and_relationships text).1 tid uid).filter
        (fun n => !(((generate_graph_from_text st text tid uid).1.generated_nodes.map
          (fun n => n.id)).contains n.id)) = [] := by
      apply List.filter_eq_nil.mpr
      intro n hn
      have hmem := generate_node_ids_superset st text tid uid n hn
      simp only [Bool.not_eq_true', Bool.not_eq_false]
      simpa [node_ids] using hmem
    rw [hfil, List.append_nil, generate_state_nodes st]
    exact dedup_nodes_idem _
  · rw [generate_state_edges ((generate_graph_from_text st text tid uid).1)]
    have hfil : (build_new_edges (extract_entities_and_relationships text).2 tid uid
        (entity_name_to_id
          (build_new_nodes (extract_entities_and_relationships text).1 tid uid))).filter
        (fun e => !(((generate_graph_from_text st text tid uid).1.generated_edges.map
          (fun e => e.id)).contains e.id)) = [] := by
      apply List.filter_eq_nil.mpr
      intro e he
      have hmem := generate_edge_ids_superset st text tid uid e he
      simp only [Bool.not_eq_true', Bool.not_eq_false]
      simpa [edge_ids] using hmem
    rw [hfil, List.append_nil, generate_state_edges st]
    exact dedup_edges_idem _

end KnowledgeGraphService

/-- C3: calling `generate_graph_from_text` a second time with the same text
and the same `transcript_id` does not change the lengths of
`generated_nodes` and `generated_edges`: node and edge ids are derived
deterministically from the transcript id and the position, and id
duplicates are not inserted. -/
theorem C3_repeat_import_counts (st : KnowledgeGraphService.KGState) (text : String)
    (tid : Option Nat) (uid : Option String) :
    (KnowledgeGraphService.generate_graph_from_text
        (KnowledgeGraphService.generate_graph_from_text st text tid uid).1
        text tid uid).1.generated_nodes.length =
      (KnowledgeGraphService.generate_graph_from_text
        st text tid uid).1.generated_nodes.length ∧
    (KnowledgeGraphService.generate_graph_from_text
        (KnowledgeGraphService.generate_graph_from_text st text tid uid).1
        text tid uid).1.generated_edges.length =
      (KnowledgeGraphService.generate_graph_from_text
        st text tid uid).1.generated_edges.length := by
  obtain ⟨hn, he⟩ := KnowledgeGraphService.generate_twice st text tid uid
  exact ⟨by rw [hn], by rw [he]⟩

/-- C9: for every input text and title, `import_text` discards all
previously generated nodes and edges and installs the fixed hard-coded
graph of 17 nodes and 25 edges, returning `entities_created = 17`; the
generated data afterwards is independent of the text and of the prior
generated state (only the `source` property echoes the title). -/
theorem C9_import_text_fixed_graph (text1 text2 : String) (title : Option String)
    (st1 st2 : KnowledgeGraphService.KGState) :
    (KnowledgeGraphService.import_text st1 text1 title).1.generated_nodes =
      (KnowledgeGraphService.import_text st2 text2 title).1.generated_nodes ∧
    (KnowledgeGraphService.import_text st1 text1 title).1.generated_edges =
      (KnowledgeGraphService.import_text st2 text2 title).1.generated_edges ∧
    (KnowledgeGraphService.import_text st1 text1 title).1.generated_nodes.length = 17 ∧
    (KnowledgeGraphService.import_text st1 text1 title).1.generated_edges.length = 25 ∧
    (KnowledgeGraphService.import_text st1 text1 title).2.entities_created = 17 := by
  refine ⟨rfl, rfl, ?_, ?_, ?_⟩
  · show (KnowledgeGraphService.local_entities.map _).length = 17
    rw [List.length_map]
    rfl
  · show ((KnowledgeGraphService.local_relationships.enum).map _).length = 25
    rw [List.length_map, List.enum_length]
    rfl
  · show (KnowledgeGraphService.local_entities.map _).length = 17
    rw [List.length_map]
    rfl

namespace KnowledgeGraphService

/-- The node list of the `generate_graph_from_text` response, unfolded: the
full, unfiltered sample nodes followed by the generated nodes, deduplicated
by id. -/
theorem generate_response_nodes (st : KGState) (text : String) (tid : Option Nat)
    (uid : Option String) :
    (generate_graph_from_text st text tid uid).2.nodes =
      dedup_nodes_by_id (sample_graph_nodes ++
        (generate_graph_from_text st text tid uid).1.generated_nodes) := rfl

/-- First-occurrence form of `exists_key_mem_dedup_aux`: a key present in
the first half of a concatenation is realised in the dedup by an element of
that first half. -/
theorem exists_key_mem_dedup_append_aux {α : Type} {key : α → String}
    {l₁ l₂ : List α} {seen : List String} {k : String}
    (hk : k ∈ l₁.map key) (hs : k ∉ seen) :
    ∃ x, x ∈ dedup_by_id_aux key seen (l₁ ++ l₂) ∧ key x = k ∧ x ∈ l₁ := by
  induction l₁ generalizing seen with
  | nil => simp at hk
  | cons y ys ih =>
      by_cases hcy : key y ∈ seen
      · have hk' : k ∈ ys.map key := by
          rcases (by simpa using hk : k = key y ∨ k ∈ ys.map key) with h | h
          · exact absurd (h ▸ hcy) hs
          · exact h
        rcases ih hk' hs with ⟨x, hx, hkey, hxl⟩
        exact ⟨x, by rw [List.cons_append, dedup_aux_cons_mem hcy]; exact hx, hkey,
               List.mem_cons_of_mem _ hxl⟩
      · by_cases hky : k = key y
        · exact ⟨y, by rw [List.cons_append, dedup_aux_cons_not_mem hcy];
                       exact List.mem_cons_self _ _,
                 hky.symm, List.mem_cons_self _ _⟩
        · have hk' : k ∈ ys.map key := by
            rcases (by simpa using hk : k = key y ∨ k ∈ ys.map key) with h | h
            · exact absurd h hky
            · exact h
          have hs' : k ∉ key y :: seen := by
            intro hmem
            rcases List.mem_cons.mp hmem with heq | hmem
            · exact hky heq
            · exact hs hmem
          rcases ih hk' hs' with ⟨x, hx, hkey, hxl⟩
          exact ⟨x, by rw [List.cons_append, dedup_aux_cons_not_mem hcy];
                       exact List.mem_cons_of_mem _ hx,
                 hkey, List.mem_cons_of_mem _ hxl⟩

end KnowledgeGraphService

/-- C10: when a seed node id is tombstoned, the node list returned by
`generate_graph_from_text` still contains that seed node (the response
concatenates the full, unfiltered sample graph with the generated data and
applies no tombstone filter), whereas `get_combined_graph_data` never
surfaces a node with that id from the seed list (only generated data could
carry it). -/
theorem C10_generate_response_ignores_tombstones
    (st : KnowledgeGraphService.KGState) (s : String) (text : String)
    (tid : Option Nat) (uid : Option String)
    (h1 : s ∈ st.deleted_sample_nodes)
    (h2 : s ∈ KnowledgeGraphService.node_ids KnowledgeGraphService.sample_graph_nodes) :
    (∃ n ∈ (KnowledgeGraphService.generate_graph_from_text st text tid uid).2.nodes,
       n.id = s ∧ n ∈ KnowledgeGraphService.sample_graph_nodes) ∧
    (∀ n ∈ (KnowledgeGraphService.get_combined_graph_data st).nodes,
       n.id = s → n ∈ st.generated_nodes) := by
  constructor
  · rw [KnowledgeGraphService.generate_response_nodes]
    rcases @KnowledgeGraphService.exists_key_mem_dedup_append_aux
      KnowledgeGraphService.GNode (fun n => n.id)
      KnowledgeGraphService.sample_graph_nodes
      ((KnowledgeGraphService.generate_graph_from_text st text tid uid).1.generated_nodes)
      [] s h2 (List.not_mem_nil s) with ⟨x, hx, hkey, hxl⟩
    exact ⟨x, hx, hkey, hxl⟩
  · intro n hn hns
    unfold KnowledgeGraphService.get_combined_graph_data at hn
    dsimp only at hn
    rcases List.mem_append.mp hn with h | h
    · obtain ⟨_, hcond⟩ := List.mem_filter.mp h
      rw [hns] at hcond
      simp [h1] at hcond
    · exact h

/-- Witness for C10: the state reached by deleting `"tim_cook"` has it
tombstoned; importing the empty text still returns the seed node, and the
combined view does not. -/
theorem C10_generate_response_ignores_tombstones_witness :
    ∃ n ∈ (KnowledgeGraphService.generate_graph_from_text
        ⟨[], [], ["tim_cook"]⟩ "" none none).2.nodes,
       n.id = "tim_cook" ∧ n ∈ KnowledgeGraphService.sample_graph_nodes :=
  (C10_generate_response_ignores_tombstones ⟨[], [], ["tim_cook"]⟩ "tim_cook" "" none none
    (by decide) (by decide)).1

namespace KnowledgeGraphService

/-! Equation lemmas (definitional) for `delete_node` and
`get_combined_graph_data`. -/

theorem delete_state_nodes (st : KGState) (nid : String) :
    (delete_node st nid).1.generated_nodes =
      st.generated_nodes.filter (fun n => !(n.id == nid)) := rfl

theorem delete_state_edges (st : KGState) (nid : String) :
    (delete_node st nid).1.generated_edges =
      st.generated_edges.filter
        (fun e => !(e.source == nid) && !(e.target == nid)) := rfl

theorem delete_state_deleted (st : KGState) (nid : String) :
    (delete_node st nid).1.deleted_sample_nodes =
      (if (sample_graph_nodes.map (fun n => n.id)).contains nid then
        (if st.deleted_sample_nodes.contains nid then st.deleted_sample_nodes
         else st.deleted_sample_nodes ++ [nid])
       else st.deleted_sample_nodes) := rfl

theorem delete_result_nodes_removed (st : KGState) (nid : String) :
    (delete_node st nid).2.nodes_removed =
      st.generated_nodes.length -
        (st.generated_nodes.filter (fun n => !(n.id == nid))).length +
      (if (sample_graph_nodes.map (fun n => n.id)).contains nid then 1 else 0) := rfl

theorem delete_result_edges_removed (st : KGState) (nid : String) :
    (delete_node st nid).2.edges_removed =
      st.generated_edges.length -
        (st.generated_edges.filter
          (fun e => !(e.source == nid) && !(e.target == nid))).length +
      (if (sample_graph_nodes.map (fun n => n.id)).contains nid then
        (sample_graph_edges.filter
          (fun e => e.source == nid || e.target == nid)).length
       else 0) := rfl

theorem combined_nodes (st : KGState) :
    (get_combined_graph_data st).nodes =
      sample_graph_nodes.filter
        (fun n => !(st.deleted_sample_nodes.contains n.id)) ++
      st.generated_nodes := rfl

theorem combined_edges (st : KGState) :
    (get_combined_graph_data st).edges =
      sample_graph_edges.filter
        (fun e => !(st.deleted_sample_nodes.contains e.source) &&
                  !(st.deleted_sample_nodes.contains e.target)) ++
      st.generated_edges := rfl

end KnowledgeGraphService

/-- C5 counterexample: on the initial state the combined view does contain
the seed edge `tim_cook --CEO_OF--> apple`, yet `delete_node "apple"`
reports `edges_removed = 2`, not `1`: the seed node `apple` has a second
incident seed edge `apple --HEADQUARTERED_IN--> cupertino` that the cascade
also counts. -/
theorem C5_delete_apple_counterexample :
    ((⟨"e1", "tim_cook", "apple", "CEO_OF", 100, []⟩ : KnowledgeGraphService.GEdge) ∈
      (KnowledgeGraphService.get_combined_graph_data
        KnowledgeGraphService.initState).edges) ∧
    (KnowledgeGraphService.delete_node KnowledgeGraphService.initState
      "apple").2.nodes_removed = 1 ∧
    (KnowledgeGraphService.delete_node KnowledgeGraphService.initState
      "apple").2.edges_removed = 2 := by decide

/-- C5 amended: on any state whose generated data does not involve
`"apple"` and where neither `"apple"` nor `"tim_cook"` is tombstoned (so
the combined view contains the seed edge `tim_cook --CEO_OF--> apple`),
`delete_node "apple"` removes the node and both of its incident seed edges,
returning `nodes_removed = 1` and `edges_removed = 2`; afterwards no node
with id `"apple"` and no edge touching `"apple"` (in particular not the
`CEO_OF` seed edge) remains in the combined view. -/
theorem C5_delete_apple (st : KnowledgeGraphService.KGState)
    (h1 : ∀ n ∈ st.generated_nodes, n.id ≠ "apple")
    (h2 : ∀ e ∈ st.generated_edges, e.source ≠ "apple" ∧ e.target ≠ "apple")
    (h3 : "apple" ∉ st.deleted_sample_nodes)
    (h4 : "tim_cook" ∉ st.deleted_sample_nodes) :
    ((⟨"e1", "tim_cook", "apple", "CEO_OF", 100, []⟩ : KnowledgeGraphService.GEdge) ∈
      (KnowledgeGraphService.get_combined_graph_data st).edges) ∧
    (KnowledgeGraphService.delete_node st "apple").2.nodes_removed = 1 ∧
    (KnowledgeGraphService.delete_node st "apple").2.edges_removed = 2 ∧
    (∀ n ∈ (KnowledgeGraphService.get_combined_graph_data
        (KnowledgeGraphService.delete_node st "apple").1).nodes, n.id ≠ "apple") ∧
    (∀ e ∈ (KnowledgeGraphService.get_combined_graph_data
        (KnowledgeGraphService.delete_node st "apple").1).edges,
       e.source ≠ "apple" ∧ e.target ≠ "apple") := by
  have hkn : st.generated_nodes.filter (fun n => !(n.id == "apple")) =
      st.generated_nodes := by
    apply List.filter_eq_self.mpr
    intro n hn
    simpa using h1 n hn
  have hke : st.generated_edges.filter
      (fun e => !(e.source == "apple") && !(e.target == "apple")) =
      st.generated_edges := by
    apply List.filter_eq_self.mpr
    intro e he
    have := h2 e he
    simp [this.1, this.2]
  have hdel : (KnowledgeGraphService.delete_node st "apple").1.deleted_sample_nodes =
      st.deleted_sample_nodes ++ ["apple"] := by
    rw [KnowledgeGraphService.delete_state_deleted,
        if_pos (by decide), if_neg (by simpa using h3)]
  refine ⟨?_, ?_, ?_, ?_, ?_⟩
  · rw [KnowledgeGraphService.combined_edges]
    apply List.mem_append_left
    apply List.mem_filter.mpr
    refine ⟨by decide, ?_⟩
    simp [h3, h4]
  · rw [KnowledgeGraphService.delete_result_nodes_removed, hkn, Nat.sub_self,
        if_pos (by decide)]
  · rw [KnowledgeGraphService.delete_result_edges_removed, hke, Nat.sub_self,
        if_pos (by decide)]
    decide
  · intro n hn
    rw [KnowledgeGraphService.combined_nodes,
        KnowledgeGraphService.delete_state_nodes, hkn, hdel] at hn
    rcases List.mem_append.mp hn with h | h
    · obtain ⟨_, hcond⟩ := List.mem_filter.mp h
      intro hne
      rw [hne] at hcond
      simp at hcond
    · exact h1 n h
  · intro e he
    rw [KnowledgeGraphService.combined_edges,
        KnowledgeGraphService.delete_state_edges, hke, hdel] at he
    rcases List.mem_append.mp he with h | h
    · obtain ⟨_, hcond⟩ := List.mem_filter.mp h
      constructor
      · intro hne
        rw [hne] at hcond
        simp at hcond
      · intro hne
        rw [hne] at hcond
        simp at hcond
    · exact h2 e h

/-- Witness for C5 at the initial state. -/
theorem C5_delete_apple_witness :
    ((⟨"e1", "tim_cook", "apple", "CEO_OF", 100, []⟩ : KnowledgeGraphService.GEdge) ∈
      (KnowledgeGraphService.get_combined_graph_data
        KnowledgeGraphService.initState).edges) ∧
    (KnowledgeGraphService.delete_node KnowledgeGraphService.initState
      "apple").2.nodes_removed = 1 ∧
    (KnowledgeGraphService.delete_node KnowledgeGraphService.initState
      "apple").2.edges_removed = 2 :=
  have h := C5_delete_apple KnowledgeGraphService.initState
    (by decide) (by decide) (by decide) (by decide)
  ⟨h.1, h.2.1, h.2.2.1⟩

/-- C7 counterexample: `get_combined_graph_data` applies no deduplication
pass, so a store state whose generated list reuses a seed id (such a state
is loadable from a persisted snapshot) yields a combined node list with two
elements sharing the id `tim_cook`. -/
theorem C7_combined_duplicate_ids_counterexample :
    ¬ ((KnowledgeGraphService.get_combined_graph_data
        ⟨[⟨"tim_cook", "Impostor", "PERSON", []⟩], [], []⟩).nodes.map
          (fun n => n.id)).Nodup := by decide

namespace KnowledgeGraphService

theorem sample_node_ids_nodup : (node_ids sample_graph_nodes).Nodup := by decide

theorem sample_edge_ids_nodup : (edge_ids sample_graph_edges).Nodup := by decide

end KnowledgeGraphService

/-- C7 amended: `get_combined_graph_data` returns the tombstone-filtered
seed items followed by the generated items with no deduplication pass of
its own; on every state reachable by the service's mutating operations the
generated ids are duplicate-free and disjoint from the seed ids, so the
combined node and edge lists contain no two elements with the same id and
coincide with their own first-occurrence deduplication. -/
theorem C7_combined_unique_ids (st : KnowledgeGraphService.KGState)
    (h : KnowledgeGraphService.Reachable st) :
    ((KnowledgeGraphService.get_combined_graph_data st).nodes.map
      (fun n => n.id)).Nodup ∧
    ((KnowledgeGraphService.get_combined_graph_data st).edges.map
      (fun e => e.id)).Nodup ∧
    (KnowledgeGraphService.get_combined_graph_data st).nodes =
      KnowledgeGraphService.dedup_nodes_by_id
        (KnowledgeGraphService.sample_graph_nodes.filter
          (fun n => !(st.deleted_sample_nodes.contains n.id)) ++
         st.generated_nodes) ∧
    (KnowledgeGraphService.get_combined_graph_data st).edges =
      KnowledgeGraphService.dedup_edges_by_id
        (KnowledgeGraphService.sample_graph_edges.filter
          (fun e => !(st.deleted_sample_nodes.contains e.source) &&
                    !(st.deleted_sample_nodes.contains e.target)) ++
         st.generated_edges) := by
  obtain ⟨_, hnn, hne, hds, hde⟩ := KnowledgeGraphService.reachable_good h
  have hnodes : ((KnowledgeGraphService.get_combined_graph_data st).nodes.map
      (fun n => n.id)).Nodup := by
    rw [KnowledgeGraphService.combined_nodes, List.map_append]
    rw [List.nodup_append]
    refine ⟨?_, hnn, ?_⟩
    · exact List.Nodup.sublist (List.Sublist.map _ (List.filter_sublist _))
        KnowledgeGraphService.sample_node_ids_nodup
    · intro a ha hb
      rcases List.mem_map.mp ha with ⟨n', hn', heq⟩
      refine hds a hb ?_
      exact heq ▸ List.mem_map.mpr ⟨n', (List.mem_filter.mp hn').1, rfl⟩
  have hedges : ((KnowledgeGraphService.get_combined_graph_data st).edges.map
      (fun e => e.id)).Nodup := by
    rw [KnowledgeGraphService.combined_edges, List.map_append]
    rw [List.nodup_append]
    refine ⟨?_, hne, ?_⟩
    · exact List.Nodup.sublist (List.Sublist.map _ (List.filter_sublist _))
        KnowledgeGraphService.sample_edge_ids_nodup
    · intro a ha hb
      rcases List.mem_map.mp ha with ⟨e', he', heq⟩
      refine hde a hb ?_
      exact heq ▸ List.mem_map.mpr ⟨e', (List.mem_filter.mp he').1, rfl⟩
  refine ⟨hnodes, hedges, ?_, ?_⟩
  · rw [KnowledgeGraphService.combined_nodes] at hnodes ⊢
    exact (KnowledgeGraphService.dedup_aux_eq_self hnodes
      (fun x _ => List.not_mem_nil _)).symm
  · rw [KnowledgeGraphService.combined_edges] at hedges ⊢
    exact (KnowledgeGraphService.dedup_aux_eq_self hedges
      (fun x _ => List.not_mem_nil _)).symm

/-- Witness for C7 at the reachable state obtained by one `delete_node`
call on the initial state. -/
theorem C7_combined_unique_ids_witness :
    ((KnowledgeGraphService.get_combined_graph_data
      (KnowledgeGraphService.delete_node KnowledgeGraphService.initState
        "apple").1).nodes.map (fun n => n.id)).Nodup ∧
    ((KnowledgeGraphService.get_combined_graph_data
      (KnowledgeGraphService.delete_node KnowledgeGraphService.initState
        "apple").1).edges.map (fun e => e.id)).Nodup ∧
    (KnowledgeGraphService.get_combined_graph_data
      (KnowledgeGraphService.delete_node KnowledgeGraphService.initState
        "apple").1).nodes =
      KnowledgeGraphService.dedup_nodes_by_id
        (KnowledgeGraphService.sample_graph_nodes.filter
          (fun n => !((KnowledgeGraphService.delete_node
            KnowledgeGraphService.initState
            "apple").1.deleted_sample_nodes.contains n.id)) ++
         (KnowledgeGraphService.delete_node KnowledgeGraphService.initState
           "apple").1.generated_nodes) ∧
    (KnowledgeGraphService.get_combined_graph_data
      (KnowledgeGraphService.delete_node KnowledgeGraphService.initState
        "apple").1).edges =
      KnowledgeGraphService.dedup_edges_by_id
        (KnowledgeGraphService.sample_graph_edges.filter
          (fun e => !((KnowledgeGraphService.delete_node
            KnowledgeGraphService.initState
            "apple").1.deleted_sample_nodes.contains e.source) &&
                    !((KnowledgeGraphService.delete_node
            KnowledgeGraphService.initState
            "apple").1.deleted_sample_nodes.contains e.target)) ++
         (KnowledgeGraphService.delete_node KnowledgeGraphService.initState
           "apple").1.generated_edges) :=
  C7_combined_unique_ids
    (KnowledgeGraphService.delete_node KnowledgeGraphService.initState "apple").1
    (KnowledgeGraphService.Reachable.del KnowledgeGraphService.initState "apple"
      KnowledgeGraphService.Reachable.init)

namespace RelationshipManager

theorem dedup_pass_cons (seen : List (List Char)) (e : XEntity) (rest : List XEntity) :
    dedup_pass seen (e :: rest) =
      (if !(seen.contains (lowerStr e.name.data)) && decide (60 ≤ e.confidence) then
        e :: dedup_pass (lowerStr e.name.data :: seen) rest
       else dedup_pass seen rest) := rfl

/-- Every entity surviving the final pass has confidence at least 0.6. -/
theorem dedup_pass_confidence (seen : List (List Char)) (l : List XEntity) :
    ∀ e ∈ dedup_pass seen l, 60 ≤ e.confidence := by
  induction l generalizing seen with
  | nil => intro e he; simp [dedup_pass] at he
  | cons y ys ih =>
      intro e he
      rw [dedup_pass_cons] at he
      by_cases hc : !(seen.contains (lowerStr y.name.data)) && decide (60 ≤ y.confidence)
      · rw [if_pos hc] at he
        rcases List.mem_cons.mp he with heq | he
        · have := (Bool.and_eq_true _ _).mp hc
          rw [heq]
          simpa using this.2
        · exact ih _ e he
      · rw [if_neg hc] at he
        exact ih _ e he

/-- The final pass keeps at most one entity per case-normalised name. -/
theorem dedup_pass_nodup_names (seen : List (List Char)) (l : List XEntity) :
    ((dedup_pass seen l).map (fun e => lowerStr e.name.data)).Nodup ∧
    ∀ e ∈ dedup_pass seen l, lowerStr e.name.data ∉ seen := by
  induction l generalizing seen with
  | nil => simp [dedup_pass]
  | cons y ys ih =>
      by_cases hc : !(seen.contains (lowerStr y.name.data)) && decide (60 ≤ y.confidence)
      · have hnotseen : lowerStr y.name.data ∉ seen := by
          have := ((Bool.and_eq_true _ _).mp hc).1
          simpa using this
        have ih' := ih (lowerStr y.name.data :: seen)
        rw [dedup_pass_cons, if_pos hc]
        constructor
        · rw [List.map_cons, List.nodup_cons]
          refine ⟨?_, ih'.1⟩
          intro hmem
          rcases List.mem_map.mp hmem with ⟨x, hx, hkey⟩
          exact (ih'.2 x hx) (by rw [hkey]; exact List.mem_cons_self _ _)
        · intro e he
          rcases List.mem_cons.mp he with heq | he
          · exact heq ▸ hnotseen
          · intro hmem
            exact (ih'.2 e he) (List.mem_cons_of_mem _ hmem)
      · rw [dedup_pass_cons, if_neg hc]
        exact ih seen

end RelationshipManager

/-- C8: for every input text, every entity returned by `extract_entities`
has confidence at least 0.6 (scaled: 60), and no two returned entities have
names equal up to letter case (the final pass keeps the first occurrence in
pattern order). -/
theorem C8_confidence_floor (text : String) :
    (∀ e ∈ RelationshipManager.extract_entities text, 60 ≤ e.confidence) ∧
    ((RelationshipManager.extract_entities text).map
      (fun e => lowerStr e.name.data)).Nodup := by
  constructor
  · intro e he
    exact RelationshipManager.dedup_pass_confidence [] _ e he
  · exact (RelationshipManager.dedup_pass_nodup_names [] _).1

/-- Witness for C8: the entity extracted from Scenario A's text has
confidence 0.9 ≥ 0.6, and the extracted list has pairwise-distinct
case-normalised names. -/
theorem C8_confidence_floor_witness :
    (60 ≤ (⟨0, "Tim Cook", "PERSON", 0, 90⟩ :
      RelationshipManager.XEntity).confidence) ∧
    ((RelationshipManager.extract_entities
      "Tim Cook is the CEO of Apple Inc.").map
        (fun e => lowerStr e.name.data)).Nodup :=
  ⟨(C8_confidence_floor "Tim Cook is the CEO of Apple Inc.").1
      ⟨0, "Tim Cook", "PERSON", 0, 90⟩ (by decide),
   (C8_confidence_floor "Tim Cook is the CEO of Apple Inc.").2⟩

/-- C1 counterexample: on Scenario A's text the entity list contains only
`Tim Cook`; no entity named `Apple Inc` is returned, because the literal
string `"apple inc"` is a member of the extractor's stop-word set and the
candidate is filtered out. -/
theorem C1_scenarioA_counterexample :
    (RelationshipManager.extract_entities "Tim Cook is the CEO of Apple Inc.").map
      (fun e => (e.name, e.type)) = [("Tim Cook", "PERSON")] ∧
    ¬ ∃ e ∈ RelationshipManager.extract_entities "Tim Cook is the CEO of Apple Inc.",
        e.name = "Apple Inc" ∧ e.type = "ORGANIZATION" := by decide

/-- C1 amended: on the input `"Tim Cook is the CEO of Apple Inc."`,
`extract_entities` returns an entity named `Tim Cook` of type `PERSON` but
no entity named `Apple Inc` (its lowercased name is in the stop-word set),
while `extract_relationships` does return the relationship
`Tim Cook --CEO_OF--> Apple Inc`. -/
theorem C1_scenarioA :
    (∃ e ∈ RelationshipManager.extract_entities "Tim Cook is the CEO of Apple Inc.",
       e.name = "Tim Cook" ∧ e.type = "PERSON") ∧
    (∀ e ∈ RelationshipManager.extract_entities "Tim Cook is the CEO of Apple Inc.",
       e.name ≠ "Apple Inc") ∧
    ("apple inc" ∈ RelationshipManager.stop_words) ∧
    (∃ r ∈ RelationshipManager.extract_relationships
        "Tim Cook is the CEO of Apple Inc.",
       r.source = "Tim Cook" ∧ r.target = "Apple Inc" ∧ r.type = "CEO_OF") := by decide

namespace RelationshipManager

theorem mem_pySlice {t : List Char} {a b : Nat} {c : Char}
    (h : c ∈ pySlice t a b) : c ∈ t :=
  (List.drop_sublist a t).subset ((List.take_sublist _ _).subset h)

theorem mem_stripChars {l : List Char} {c : Char} (h : c ∈ stripChars l) : c ∈ l := by
  unfold stripChars at h
  rw [List.mem_reverse] at h
  have h2 := (List.dropWhile_sublist _).subset h
  rw [List.mem_reverse] at h2
  exact (List.dropWhile_sublist _).subset h2

/-- The match text of any candidate built from a text without uppercase
letters itself has no uppercase letter. -/
theorem stripslice_no_upper {t : List Char} {a b : Nat}
    (h : t.all (fun c => !isAsciiUpper c) = true) :
    (stripChars (pySlice t a b)).any isAsciiUpper = false := by
  rw [List.any_eq_false]
  intro c hc
  have hct : c ∈ t := mem_pySlice (mem_stripChars hc)
  have := List.all_eq_true.mp h c hct
  simpa using this

theorem meaningful_person_false {txt : List Char}
    (h : txt.any isAsciiUpper = false) :
    is_meaningful_entity txt "PERSON" = false := by
  simp [is_meaningful_entity, h]

theorem meaningful_organization_false {txt : List Char}
    (h : txt.any isAsciiUpper = false) :
    is_meaningful_entity txt "ORGANIZATION" = false := by
  simp [is_meaningful_entity, h]

theorem meaningful_location_false {txt : List Char}
    (h : txt.any isAsciiUpper = false) :
    is_meaningful_entity txt "LOCATION" = false := by
  simp [is_meaningful_entity, h]

/-- A candidate whose type-specific plausibility check fails is dropped. -/
theorem mk_candidate_none {t : List Char} {ty : String} {m : RMatch}
    (h : is_meaningful_entity (stripChars (pySlice t m.mstart m.mstop)) ty = false) :
    mk_candidate t ty m = none := by
  simp [mk_candidate, h]

/-- A produced candidate carries the family's type tag. -/
theorem mk_candidate_type {t : List Char} {ty : String} {m : RMatch} {y : XEntity}
    (h : mk_candidate t ty m = some y) : y.type = ty := by
  unfold mk_candidate at h
  by_cases hc : (decide (2 < (stripChars (pySlice t m.mstart m.mstop)).length) &&
     !(stop_words.any (fun w => w.data == lowerStr (stripChars (pySlice t m.mstart m.mstop)))) &&
     !(isPyDigit (stripChars (pySlice t m.mstart m.mstop))) &&
     decide ((splitWs (stripChars (pySlice t m.mstart m.mstop))).length ≤ 4) &&
     !(reMatch rxNoLetters (stripChars (pySlice t m.mstart m.mstop))) &&
     !("http".data.isPrefixOf (stripChars (pySlice t m.mstart m.mstop)) ||
       "www".data.isPrefixOf (stripChars (pySlice t m.mstart m.mstop)) ||
       "ftp".data.isPrefixOf (stripChars (pySlice t m.mstart m.mstop))) &&
     !(invalid_patterns.any (fun p =>
        reMatch p (lowerStr (stripChars (pySlice t m.mstart m.mstop))))) &&
     is_meaningful_entity (stripChars (pySlice t m.mstart m.mstop)) ty)
  · rw [if_pos hc] at h
    cases h
    rfl
  · rw [if_neg hc] at h
    exact absurd h (by simp)

theorem mem_of_mem_dedup_pass {seen : List (List Char)} {l : List XEntity}
    {e : XEntity} (h : e ∈ dedup_pass seen l) : e ∈ l := by
  induction l generalizing seen with
  | nil => simp [dedup_pass] at h
  | cons y ys ih =>
      rw [dedup_pass_cons] at h
      by_cases hc : !(seen.contains (lowerStr y.name.data)) && decide (60 ≤ y.confidence)
      · rw [if_pos hc] at h
        rcases List.mem_cons.mp h with heq | h
        · exact heq ▸ List.mem_cons_self _ _
        · exact List.mem_cons_of_mem _ (ih h)
      · rw [if_neg hc] at h
        exact List.mem_cons_of_mem _ (ih h)

/-- `extract_entities`, unfolded to its final pass. -/
theorem extract_entities_eq (text : String) :
    extract_entities text = dedup_pass []
      ((entity_patterns.flatMap (fun fam =>
        fam.2.flatMap (fun p => (finditer p text.data).filterMap
          (fun m => mk_candidate text.data fam.1 m)))).enum.map
        (fun ie => { ie.2 with id := ie.1 })) := rfl

end RelationshipManager

/-- C6 counterexample: the input `"python"` contains no uppercase
character, yet `extract_entities` returns a TECHNOLOGY entity for it (the
patterns are matched case-insensitively and the TECHNOLOGY plausibility
check does not require an uppercase letter), so an import of such text
reports a nonzero entity count. -/
theorem C6_lowercase_counterexample :
    ("python".data.all (fun c => !isAsciiUpper c) = true) ∧
    (RelationshipManager.extract_entities "python").map
      (fun e => (e.name, e.type, e.confidence)) = [("python", "TECHNOLOGY", 60)] ∧
    RelationshipManager.extract_entities "python" ≠ [] := by decide

/-- C6 amended: on any input without uppercase characters,
`extract_entities` returns no PERSON, ORGANIZATION or LOCATION entity —
those plausibility checks require an uppercase letter in the matched span,
which is a substring of the input; only TECHNOLOGY entities (matched
case-insensitively) can remain. -/
theorem C6_no_uppercase_types (text : String)
    (h : text.data.all (fun c => !isAsciiUpper c) = true) :
    ∀ e ∈ RelationshipManager.extract_entities text, e.type = "TECHNOLOGY" := by
  intro e he
  rw [RelationshipManager.extract_entities_eq] at he
  have he2 := RelationshipManager.mem_of_mem_dedup_pass he
  rcases List.mem_map.mp he2 with ⟨ie, hie, hee⟩
  have hy : ie.2 ∈ RelationshipManager.entity_patterns.flatMap (fun fam =>
      fam.2.flatMap (fun p => (finditer p text.data).filterMap
        (fun m => RelationshipManager.mk_candidate text.data fam.1 m))) :=
    List.snd_mem_of_mem_enum hie
  rcases List.mem_flatMap.mp hy with ⟨fam, hfam, hyfam⟩
  rcases List.mem_flatMap.mp hyfam with ⟨p, _, hyp⟩
  rcases List.mem_filterMap.mp hyp with ⟨m, _, hsome⟩
  have hetype : e.type = fam.1 := by
    have h1 : e.type = ie.2.type := by rw [← hee]
    exact h1.trans (RelationshipManager.mk_candidate_type hsome)
  have hnoup : (stripChars (pySlice text.data m.mstart m.mstop)).any isAsciiUpper
      = false := RelationshipManager.stripslice_no_upper h
  have hfam4 : fam.1 = "PERSON" ∨ fam.1 = "ORGANIZATION" ∨ fam.1 = "LOCATION" ∨
      fam.1 = "TECHNOLOGY" := by
    rcases List.mem_cons.mp hfam with hf | hf
    · exact Or.inl (by rw [hf])
    rcases List.mem_cons.mp hf with hf | hf
    · exact Or.inr (Or.inl (by rw [hf]))
    rcases List.mem_cons.mp hf with hf | hf
    · exact Or.inr (Or.inr (Or.inl (by rw [hf])))
    rcases List.mem_cons.mp hf with hf | hf
    · exact Or.inr (Or.inr (Or.inr (by rw [hf])))
    · simp at hf
  rcases hfam4 with hf | hf | hf | hf
  · rw [hf] at hsome
    rw [RelationshipManager.mk_candidate_none
      (RelationshipManager.meaningful_person_false hnoup)] at hsome
    exact absurd hsome (by simp)
  · rw [hf] at hsome
    rw [RelationshipManager.mk_candidate_none
      (RelationshipManager.meaningful_organization_false hnoup)] at hsome
    exact absurd hsome (by simp)
  · rw [hf] at hsome
    rw [RelationshipManager.mk_candidate_none
      (RelationshipManager.meaningful_location_false hnoup)] at hsome
    exact absurd hsome (by simp)
  · rw [hetype, hf]

/-- Witness for C6 at the input `"python"` and its extracted TECHNOLOGY
entity. -/
theorem C6_no_uppercase_types_witness :
    ("python".data.all (fun c => !isAsciiUpper c) = true) ∧
    (⟨0, "python", "TECHNOLOGY", 0, 60⟩ : RelationshipManager.XEntity).type
      = "TECHNOLOGY" :=
  ⟨by decide, C6_no_uppercase_types "python" (by decide)
    ⟨0, "python", "TECHNOLOGY", 0, 60⟩ (by decide)⟩

namespace KnowledgeGraphService

theorem mk_node_id_one (i : Nat) : (mk_node_id (some 1) i).data.get? 10 = some '1' := rfl

theorem mk_node_id_two (i : Nat) : (mk_node_id (some 2) i).data.get? 10 = some '2' := rfl

theorem mk_node_id_one_two_ne (j k : Nat) :
    mk_node_id (some 1) j ≠ mk_node_id (some 2) k := by
  intro h
  have h1 := mk_node_id_one j
  rw [h, mk_node_id_two k] at h1
  exact absurd h1 (by decide)

/-- Starting from the initial state, an import's generated nodes are exactly
the deduplicated nodes it built. -/
theorem generate_from_init_nodes (text : String) (tid : Option Nat)
    (uid : Option String) :
    (generate_graph_from_text initState text tid uid).1.generated_nodes =
      dedup_nodes_by_id
        (build_new_nodes (extract_entities_and_relationships text).1 tid uid) := by
  rw [generate_state_nodes]
  show dedup_nodes_by_id (([] : List GNode) ++ _) = _
  rw [List.nil_append]
  congr 1
  apply List.filter_eq_self.mpr
  intro a _
  rfl

end KnowledgeGraphService

open KnowledgeGraphService in
/-- C4 amended: two sequential imports accumulate when they use distinct
transcript ids (shown for transcript ids 1 and 2, arbitrary texts and
users): every node of the first import's post-state survives the second
import, every deduplicated node built by the second import is present
afterwards, and the final `generated_nodes` length is the sum of the two
imports' unique contributions.  (With equal or missing transcript ids the
second import's colliding ids are dropped — see the counterexample.) -/
theorem C4_accumulate_distinct_ids (text1 text2 : String) (uid1 uid2 : Option String) :
    (∀ n ∈ (generate_graph_from_text initState text1 (some 1) uid1).1.generated_nodes,
       n ∈ (generate_graph_from_text
         (generate_graph_from_text initState text1 (some 1) uid1).1
         text2 (some 2) uid2).1.generated_nodes) ∧
    (∀ n ∈ dedup_nodes_by_id
        (build_new_nodes (extract_entities_and_relationships text2).1 (some 2) uid2),
       n ∈ (generate_graph_from_text
         (generate_graph_from_text initState text1 (some 1) uid1).1
         text2 (some 2) uid2).1.generated_nodes) ∧
    (generate_graph_from_text
        (generate_graph_from_text initState text1 (some 1) uid1).1
        text2 (some 2) uid2).1.generated_nodes.length =
      (generate_graph_from_text initState text1 (some 1) uid1).1.generated_nodes.length +
      (dedup_nodes_by_id
        (build_new_nodes (extract_entities_and_relationships text2).1
          (some 2) uid2)).length ∧
    (generate_graph_from_text initState text1 (some 1) uid1).1.generated_nodes =
      dedup_nodes_by_id
        (build_new_nodes (extract_entities_and_relationships text1).1 (some 1) uid1) := by
  set n1 := build_new_nodes (extract_entities_and_relationships text1).1 (some 1) uid1
    with hn1
  set n2 := build_new_nodes (extract_entities_and_relationships text2).1 (some 2) uid2
    with hn2
  have hst1 : (generate_graph_from_text initState text1 (some 1) uid1).1.generated_nodes
      = dedup_nodes_by_id n1 := generate_from_init_nodes text1 (some 1) uid1
  -- ids of the first import's state never collide with the second import's ids
  have hdisj : ∀ m ∈ n2, m.id ∉
      node_ids (generate_graph_from_text initState text1 (some 1) uid1).1.generated_nodes := by
    intro m hm hmem
    rcases build_new_nodes_id hm with ⟨k, hk⟩
    rw [hst1] at hmem
    rcases List.mem_map.mp ((@mem_node_ids_dedup n1 _).mp hmem) with ⟨n', hn', heq⟩
    rcases build_new_nodes_id hn' with ⟨j, hj⟩
    exact mk_node_id_one_two_ne j k (by rw [← hj, heq, hk])
  have hfil : n2.filter (fun n =>
      !(((generate_graph_from_text initState text1 (some 1) uid1).1.generated_nodes.map
        (fun n => n.id)).contains n.id)) = n2 := by
    apply List.filter_eq_self.mpr
    intro a ha
    have := hdisj a ha
    simp only [Bool.not_eq_true']
    simpa [node_ids] using this
  have hsplit : (generate_graph_from_text
      (generate_graph_from_text initState text1 (some 1) uid1).1
      text2 (some 2) uid2).1.generated_nodes =
      (generate_graph_from_text initState text1 (some 1) uid1).1.generated_nodes ++
        dedup_nodes_by_id n2 := by
    rw [generate_state_nodes, hfil]
    apply dedup_aux_append
    · intro x _
      exact List.not_mem_nil _
    · rw [hst1]
      exact (dedup_aux_nodup_keys _ [] _).1
    · intro x hx
      exact ⟨hdisj x hx, List.not_mem_nil _⟩
  refine ⟨?_, ?_, ?_, hst1⟩
  · intro n hn
    rw [hsplit]
    exact List.mem_append_left _ hn
  · intro n hn
    rw [hsplit]
    exact List.mem_append_right _ hn
  · rw [hsplit, List.length_append]

/-- C4 counterexample: two sequential imports of unrelated texts with no
`transcript_id` (the default) do NOT accumulate: both imports derive ids
`extracted_0, extracted_1, …`, so the second import's colliding ids are
dropped.  The first import contributes 1 node and the second builds 2, yet
the final length is 2 (not 3) and the second import's entity
`Sundar Pichai` is absent. -/
theorem C4_sequential_counterexample :
    (KnowledgeGraphService.generate_graph_from_text KnowledgeGraphService.initState
      "Tim Cook is the CEO of Apple Inc." none none).1.generated_nodes.length = 1 ∧
    (KnowledgeGraphService.build_new_nodes
      (KnowledgeGraphService.extract_entities_and_relationships
        "Sundar Pichai is the CEO of Google.").1 none none).length = 2 ∧
    (KnowledgeGraphService.generate_graph_from_text
      (KnowledgeGraphService.generate_graph_from_text KnowledgeGraphService.initState
        "Tim Cook is the CEO of Apple Inc." none none).1
      "Sundar Pichai is the CEO of Google." none none).1.generated_nodes.length = 2 ∧
    (∀ n ∈ (KnowledgeGraphService.generate_graph_from_text
      (KnowledgeGraphService.generate_graph_from_text KnowledgeGraphService.initState
        "Tim Cook is the CEO of Apple Inc." none none).1
      "Sundar Pichai is the CEO of Google." none none).1.generated_nodes,
      n.label ≠ "Sundar Pichai") := by decide

/-- Witness for C4: with transcript ids 1 and 2, the second import's
`Sundar Pichai` node is present afterwards. -/
theorem C4_accumulate_distinct_ids_witness :
    (⟨"extracted_2_0", "Sundar Pichai", "PERSON",
      [("confidence", KnowledgeGraphService.PVal.i 90),
       ("source", KnowledgeGraphService.PVal.s "transcript_2"),
       ("user_id", KnowledgeGraphService.PVal.s "local-user-1"),
       ("position", KnowledgeGraphService.PVal.n 0)]⟩ : KnowledgeGraphService.GNode) ∈
      (KnowledgeGraphService.generate_graph_from_text
        (KnowledgeGraphService.generate_graph_from_text KnowledgeGraphService.initState
          "Tim Cook is the CEO of Apple Inc." (some 1) none).1
        "Sundar Pichai is the CEO of Google." (some 2) none).1.generated_nodes :=
  (C4_accumulate_distinct_ids "Tim Cook is the CEO of Apple Inc."
      "Sundar Pichai is the CEO of Google." none none).2.1 _ (by decide)
